import Mathlib

/-!
Verification of the Exscript `Transport` base class
(`src/Exscript/protocols/Transport.py`): the authentication state machine
and the incremental pattern-matching/buffer engine underlying it.

The Python class is embedded shallowly as a state monad `M α := St → Res α`
where `Res` carries the resulting session state both on normal return and on
a raised exception (Python exceptions do not roll back attribute mutations).

Parts of the program that live outside `Transport.py` (the raw transport,
the `_domatch` buffer engine implemented by protocol subclasses, the driver
catalog, the `OsGuesser`, the `otp` function, the `Account` class) are
modelled from the specification; each such definition says so in its doc
comment.  Python regular expressions are modelled by a small concrete
pattern language (`Pattern`) that supports the two operations the source
uses: unanchored search with end position and two capture groups, and
anchored `match` against a line.
-/

namespace Transport

/-- Character-list strings: all of the model computes on `List Char` so that
every witness evaluates by kernel reduction. -/
abbrev Str := List Char

/-- Coerces a Lean string literal into the model's character-list strings. -/
def str (s : String) : Str := s.toList

/-- Python `data.replace(chr(13) + chr(0), '')` from `_receive_cb`:
removes every (non-overlapping, left-to-right) CR NUL pair. -/
def clean : Str → Str
  | [] => []
  | '\r' :: '\x00' :: t => clean t
  | c :: t => c :: clean t

/-- Python `str.split('\n')`: splits at every newline, keeping empty parts. -/
def splitNL : Str → List Str
  | [] => [[]]
  | c :: t =>
    if c = '\n' then [] :: splitNL t
    else
      match splitNL t with
      | [] => [[c]]
      | h :: r => (c :: h) :: r

/-- Python `int` on a digit string (the source applies it to the digits
captured by group 1 of `_skey_re`). -/
def digitsToNat (l : Str) : Nat :=
  l.foldl (fun n c => n * 10 + (c.toNat - 48)) 0

/-- Greedy run of decimal digits (regex `\d+`): returns the run and the rest. -/
def digitRun : Str → Str × Str
  | [] => ([], [])
  | c :: t =>
    if c.isDigit then
      let p := digitRun t
      (c :: p.1, p.2)
    else ([], c :: t)

/-- Greedy run of non-whitespace characters (regex `\S+`). -/
def solidRun : Str → Str × Str
  | [] => ([], [])
  | c :: t =>
    if c.isWhitespace then ([], c :: t)
    else
      let p := solidRun t
      (c :: p.1, p.2)

/-- Result of a successful regular-expression search: the end position of the
match in the searched text and the texts of capture groups 1 and 2 (empty for
patterns without groups).  Mirrors the parts of Python's match object that
`Transport.py` consumes (`match.end` implicitly via consumption, `group(1)`,
`group(2)`). -/
structure MatchResult where
  endPos : Nat
  g1 : Str
  g2 : Str
deriving DecidableEq, Repr

/-- Attempt to match the source's module-level regex
`_skey_re = re.compile(r'(?:s\/key|otp-md4) (\d+) (\S+)')` at the head of the
text: one of the two literal alternatives, a space, the digit group, a space,
the non-whitespace group. -/
def skeyAt (l : Str) : Option (Nat × Str × Str) :=
  tryPre (str "s/key ") <|> tryPre (str "otp-md4 ")
where
  tryPre (pre : Str) : Option (Nat × Str × Str) :=
    if pre.isPrefixOf l then
      let rest := l.drop pre.length
      let d := digitRun rest
      if d.1 = [] then none
      else
        match d.2 with
        | ' ' :: r2 =>
          let w := solidRun r2
          if w.1 = [] then none
          else some (pre.length + d.1.length + 1 + w.1.length, d.1, w.1)
        | _ => none
    else none

/-- Leftmost match of `_skey_re` in a text (Python `re.search` semantics),
tracking the absolute position `pos` of the current suffix. -/
def skeySearch : Str → Nat → Option MatchResult
  | [], _ => none
  | l@(_ :: t), pos =>
    match skeyAt l with
    | some (len, d, w) => some ⟨pos + len, d, w⟩
    | none => skeySearch t (pos + 1)

/-- Leftmost occurrence of a literal needle in a text, tracking the absolute
position of the current suffix. -/
def litFind : Str → Str → Nat → Option Nat
  | pat, [], pos => if pat = [] then some pos else none
  | pat, l@(_ :: t), pos =>
    if pat.isPrefixOf l then some pos else litFind pat t (pos + 1)

/-- The model's regular expressions.  The source treats driver patterns as
opaque compiled regexes; the two operations it performs on them are
unanchored search (inside the wait engine) and anchored `match` against a
single line (inside `expect_prompt`'s error scan).  `lit s` matches the
literal text `s`; `skey` is the source's `_skey_re` challenge regex. -/
inductive Pattern where
  | lit : Str → Pattern
  | skey : Pattern
deriving DecidableEq, Repr

/-- Unanchored leftmost search (Python `re.search`, which is what matching
"anywhere in the buffer" in the wait engine amounts to). -/
def Pattern.search : Pattern → Str → Option MatchResult
  | .lit p, buf => (litFind p buf 0).map fun i => ⟨i + p.length, [], []⟩
  | .skey, buf => skeySearch buf 0

/-- Anchored match against the start of a line (Python `pattern.match(line)`
as used by `expect_prompt`'s error scan), reduced to its truthiness. -/
def Pattern.matchLine : Pattern → Str → Bool
  | .lit p, l => p.isPrefixOf l
  | .skey, l => (skeyAt l).isSome

/-- First pattern in the supplied order that matches anywhere in the text
(list order is the tie-break, not match position), with its index. -/
def findMatchAux : List Pattern → Str → Nat → Option (Nat × MatchResult)
  | [], _, _ => none
  | p :: ps, buf, i =>
    match p.search buf with
    | some r => some (i, r)
    | none => findMatchAux ps buf (i + 1)

/-- Entry point of the pattern race inside the wait engine. -/
def findMatch (pats : List Pattern) (buf : Str) : Option (Nat × MatchResult) :=
  findMatchAux pats buf 0

/-- Modelled from the spec (Credential Bundle, section 3; the `Account`
class is not part of `src/`): name, password, optional authorization
password, optional key material. -/
structure Account where
  name : Str
  password : Str
  password2 : Option Str
  key : Option Str
deriving DecidableEq, Repr

/-- Modelled from the spec (Behavior Profile, section 6; the drivers package
is not part of `src/`): a stable name and the five per-category pattern
sets.  Its procedures (`init_terminal`, `auto_authorize`) are modelled as
trace events where the source invokes them. -/
structure Driver where
  name : Str
  user_re : List Pattern
  password_re : List Pattern
  prompt_re : List Pattern
  error_re : List Pattern
  login_error_re : List Pattern
deriving DecidableEq, Repr

/-- Observable side effects of the session: data sent to the device, the
protocol-authentication hooks (`_protocol_authenticate`,
`_protocol_authenticate_by_key`, abstract in the base class), the
one-time-password request event, the driver's `auto_authorize` procedure,
the `data_received_event`, and `cancel_expect`. -/
inductive Ev where
  | sent : Str → Ev
  | protoAuth : Str → Str → Ev
  | protoAuthKey : Str → Str → Ev
  | otpRequested : Nat → Str → Ev
  | autoAuthorize : Str → Str → Bool → Ev
  | dataReceived : Str → Ev
  | cancelExpect : Ev
deriving DecidableEq, Repr

/-- The exceptions of `Transport.py` (`TimeoutException` and
`InvalidCommandException` carry their message; `LoginFailure` its message;
`TypeError` covers `_get_account`'s misuse error; `pyError` stands for the
unreachable `IndexError` / `assert False` paths; `fuelExhausted` is a
modelling artifact of the explicit iteration bound put on the source's
unbounded `while True` loop and never corresponds to a Python exception). -/
inductive Err where
  | timeoutError : Str → Err
  | driverReplaced : Err
  | expectCancelled : Err
  | eofError : Err
  | loginFailure : Str → Err
  | invalidCommand : Str → Err
  | typeError : Str → Err
  | pyError : Str → Err
  | fuelExhausted : Err
deriving DecidableEq, Repr

/-- Session state: the attributes of the `Transport` object, plus the
receive buffer and the pending device output.  The buffer and the chunk
queue are modelled from the spec (sections 3 and 4.1): the concrete buffer
lives in the protocol subclasses, which are not part of `src/`.  The pending
chunks model the data the device will send; their exhaustion models the wait
timeout (`closed = true` turns exhaustion into end-of-stream instead). -/
structure St where
  buffer : Str
  chunks : List Str
  closed : Bool
  response : Option Str
  authenticated : Bool
  app_authenticated : Bool
  app_authorized : Bool
  manual_user_re : Option (List Pattern)
  manual_password_re : Option (List Pattern)
  manual_prompt_re : Option (List Pattern)
  manual_error_re : Option (List Pattern)
  manual_login_error_re : Option (List Pattern)
  driver_replaced : Bool
  cancel : Bool
  manual_driver : Option Driver
  auto_driver : Driver
  last_account : Option Account
  osEvidence : List Str
  trace : List Ev
deriving DecidableEq, Repr

/-- External collaborators (spec section 6), as interfaces: the
one-time-password function, the driver registry `driver_map` (total, with a
fallback), the OS Evidence Accumulator's guess as a function of all evidence
observed so far, and whether a `data_received_event` subscriber calls
`cancel_expect` on a given chunk (spec section 4.5). -/
structure Env where
  otp : Str → Str → Nat → Str
  driver_map : Str → Driver
  osGuess : List Str → Str
  cancelOnData : Str → Bool

/-- Result of running one operation: Python exceptions leave the mutated
object behind, so both outcomes carry the final state. -/
inductive Res (α : Type) where
  | ok : α → St → Res α
  | err : Err → St → Res α
deriving DecidableEq, Repr

/-- Final state of a result, for stating theorems without binding it. -/
def Res.state : Res α → St
  | .ok _ s => s
  | .err _ s => s

/-- Value of a successful result. -/
def Res.val? : Res α → Option α
  | .ok a _ => some a
  | .err _ _ => none

/-- Exception of a failed result. -/
def Res.err? : Res α → Option Err
  | .ok _ _ => none
  | .err e _ => some e

/-- Whether the result is a normal return. -/
def Res.isOk : Res α → Bool
  | .ok _ _ => true
  | .err _ _ => false

/-- The session monad: state passing with state-carrying exceptions. -/
def M (α : Type) := St → Res α

/-- Monadic return. -/
def M.pure (a : α) : M α := fun s => .ok a s

/-- Monadic bind: an exception short-circuits, keeping the state. -/
def M.bind (m : M α) (f : α → M β) : M β := fun s =>
  match m s with
  | .ok a s1 => f a s1
  | .err e s1 => .err e s1

instance : Monad M where
  pure := M.pure
  bind := M.bind

/-- Raise a Python exception. -/
def M.throw (e : Err) : M α := fun s => .err e s

/-- Read the whole session state. -/
def M.getSt : M St := fun s => .ok s s

/-- Apply a state update (an attribute assignment). -/
def M.modify (f : St → St) : M Unit := fun s => .ok () (f s)

/-- Source `get_driver` (lines 327-336): the pinned manual driver if one is
set, else the automatically guessed one.  A driver object is always truthy
in Python, so the manual driver wins exactly when present. -/
def get_driver (s : St) : Driver :=
  match s.manual_driver with
  | some d => d
  | none => s.auto_driver

/-- Source `guess_os` (lines 928-941), with the `OsGuesser` modelled from
the spec as a pure function of the evidence fed to it so far. -/
def guess_os (env : Env) (s : St) : Str :=
  env.osGuess s.osEvidence

/-- Modelled from the spec: `Exscript.util.cast.to_regexs` compiles its
argument into a list of regex objects; on the model's already-compiled
pattern lists it is the identity. -/
def to_regexs (l : List Pattern) : List Pattern := l

/-- Source `set_username_prompt` (lines 351-362). -/
def set_username_prompt (regex : Option (List Pattern)) (s : St) : St :=
  match regex with
  | none => { s with manual_user_re := none }
  | some r => { s with manual_user_re := some (to_regexs r) }

/-- Source `get_username_prompt` (lines 364-374).  Python truthiness: the
manual override is used when it is neither `None` nor the empty list. -/
def get_username_prompt (s : St) : List Pattern :=
  match s.manual_user_re with
  | some l => if l ≠ [] then l else (get_driver s).user_re
  | none => (get_driver s).user_re

/-- Source `set_password_prompt` (lines 376-387). -/
def set_password_prompt (regex : Option (List Pattern)) (s : St) : St :=
  match regex with
  | none => { s with manual_password_re := none }
  | some r => { s with manual_password_re := some (to_regexs r) }

/-- Source `get_password_prompt` (lines 389-399). -/
def get_password_prompt (s : St) : List Pattern :=
  match s.manual_password_re with
  | some l => if l ≠ [] then l else (get_driver s).password_re
  | none => (get_driver s).password_re

/-- Source `set_prompt` (lines 401-415). -/
def set_prompt (prompt : Option (List Pattern)) (s : St) : St :=
  match prompt with
  | none => { s with manual_prompt_re := none }
  | some r => { s with manual_prompt_re := some (to_regexs r) }

/-- Source `get_prompt` (lines 417-427). -/
def get_prompt (s : St) : List Pattern :=
  match s.manual_prompt_re with
  | some l => if l ≠ [] then l else (get_driver s).prompt_re
  | none => (get_driver s).prompt_re

/-- Source `set_error_prompt` (lines 429-441). -/
def set_error_prompt (error : Option (List Pattern)) (s : St) : St :=
  match error with
  | none => { s with manual_error_re := none }
  | some r => { s with manual_error_re := some (to_regexs r) }

/-- Source `get_error_prompt` (lines 443-453). -/
def get_error_prompt (s : St) : List Pattern :=
  match s.manual_error_re with
  | some l => if l ≠ [] then l else (get_driver s).error_re
  | none => (get_driver s).error_re

/-- Source `set_login_error_prompt` (lines 455-467). -/
def set_login_error_prompt (error : Option (List Pattern)) (s : St) : St :=
  match error with
  | none => { s with manual_login_error_re := none }
  | some r => { s with manual_login_error_re := some (to_regexs r) }

/-- Source `get_login_error_prompt` (lines 469-480). -/
def get_login_error_prompt (s : St) : List Pattern :=
  match s.manual_login_error_re with
  | some l => if l ≠ [] then l else (get_driver s).login_error_re
  | none => (get_driver s).login_error_re

/-- Modelled from the spec (section 4.5): `cancel_expect` is abstract in the
base class and implemented by subclasses as a cooperative cancellation flag;
the trace event records the invocation. -/
def cancel_expect (s : St) : St :=
  { s with cancel := true, trace := Ev.cancelExpect :: s.trace }

/-- Source `_driver_replaced_notify` (lines 263-267): sets the
`driver_replaced` flag and cancels the in-flight wait. -/
def driver_replaced_notify (s : St) : St :=
  cancel_expect { s with driver_replaced := true }

/-- Lines 277-279 of `_receive_cb`: feed the (cleaned) chunk to the
`OsGuesser` and re-resolve the automatic driver from the new guess; the two
consecutive assignments are combined into one state update. -/
def osUpdate (env : Env) (d : Str) (s : St) : St :=
  { s with osEvidence := s.osEvidence ++ [d],
           auto_driver := env.driver_map (env.osGuess (s.osEvidence ++ [d])) }

/-- Source `_receive_cb` (lines 269-284): strips CR NUL pairs, feeds the
evidence to the `OsGuesser`, re-resolves the automatic driver, fires the
driver-replaced notification if the active driver changed, then fires
`data_received_event` (whose subscribers may call `cancel_expect`). -/
def receive_cb (env : Env) (data : Str) (s : St) : St :=
  let d := clean data
  let s2 := osUpdate env d s
  let s3 := if get_driver s ≠ get_driver s2 then driver_replaced_notify s2 else s2
  let s4 := { s3 with trace := Ev.dataReceived d :: s3.trace }
  if env.cancelOnData d then cancel_expect s4 else s4

/-- The wait engine's outcome on a successful match: record the text through
the end of the match (match included) in `response`, and in consume mode
remove it from the front of the buffer. -/
def matchHit (pending : List Str) (consume : Bool) (i : Nat) (r : MatchResult)
    (s : St) : Res (Nat × MatchResult) :=
  let matched := s.buffer.take r.endPos
  if consume then
    .ok (i, r) { s with chunks := pending, response := some matched,
                        buffer := s.buffer.drop r.endPos }
  else
    .ok (i, r) { s with chunks := pending, response := some matched }

/-- The wait engine's outcome when the pending data is exhausted with no
match: end-of-stream if the transport closed, else a timeout that leaves the
buffered text in `response` and carries it in the exception. -/
def noData (s : St) : Res (Nat × MatchResult) :=
  if s.closed then .err Err.eofError { s with chunks := [] }
  else .err (Err.timeoutError s.buffer) { s with chunks := [], response := some s.buffer }

/-- Modelled from the spec (Incremental Match Engine, section 4.1; the
concrete `_domatch` lives in the protocol subclasses, outside `src/`):
evaluate the buffer against all patterns, first-in-list-order wins; on a
match, `matchHit` records and consumes; otherwise receive the next chunk,
append it to the buffer, run the data-received notification path, raise
`DriverReplaced` if the profile changed (consuming both abort flags, since
the notification's `cancel_expect` targeted the wait being unwound), raise
`ExpectCancelled` (resetting the flag) if cancellation was requested, and
retry; when no data remains, fail through `noData`. -/
def domatchAux (env : Env) (pats : List Pattern) (consume : Bool) :
    List Str → St → Res (Nat × MatchResult)
  | [], s =>
    match findMatch pats s.buffer with
    | some (i, r) => matchHit [] consume i r s
    | none => noData s
  | c :: rest, s =>
    match findMatch pats s.buffer with
    | some (i, r) => matchHit (c :: rest) consume i r s
    | none =>
      let s1 := receive_cb env c
        { s with chunks := rest, buffer := s.buffer ++ clean c }
      if s1.driver_replaced then
        .err Err.driverReplaced { s1 with driver_replaced := false, cancel := false }
      else if s1.cancel then
        .err Err.expectCancelled { s1 with cancel := false }
      else domatchAux env pats consume rest s1

/-- The wait primitive `self._domatch(...)`, driven by the state's own
pending chunks. -/
def domatch (env : Env) (pats : List Pattern) (consume : Bool) : M (Nat × MatchResult) :=
  fun s => domatchAux env pats consume s.chunks s

/-- Modelled from the spec: `OsGuesser.response_received` is a boundary
notification to the evidence accumulator and does not change the modelled
guess. -/
def response_received (s : St) : St := s

/-- Source `_waitfor` (lines 804-807): peek-mode match, then notify the
`OsGuesser` (the notification is skipped when the match raised). -/
def waitfor_low (env : Env) (prompt : List Pattern) : M (Nat × MatchResult) := fun s =>
  match domatch env (to_regexs prompt) false s with
  | .ok r s1 => .ok r (response_received s1)
  | .err e s1 => .err e s1

/-- Source `_expect` (lines 846-849): consume-mode match, then notify the
`OsGuesser`. -/
def expect_low (env : Env) (prompt : List Pattern) : M (Nat × MatchResult) := fun s =>
  match domatch env (to_regexs prompt) true s with
  | .ok r s1 => .ok r (response_received s1)
  | .err e s1 => .err e s1

/-- Source `waitfor` (lines 809-844): retries `_waitfor` whenever it raises
`DriverReplacedException`, returning or re-raising anything else.  The
source's `while True` loop carries no bound; here the iteration count is the
explicit argument, and the public `waitfor` below supplies a bound proved
sufficient (each driver replacement consumes at least one pending chunk). -/
def waitforAux (env : Env) (prompt : List Pattern) : Nat → M (Nat × MatchResult)
  | 0 => M.throw Err.fuelExhausted
  | n + 1 => fun s =>
    match waitfor_low env prompt s with
    | .err .driverReplaced s1 => waitforAux env prompt n s1
    | r => r

/-- Source `waitfor` (lines 809-844), public entry point. -/
def waitfor (env : Env) (prompt : List Pattern) : M (Nat × MatchResult) := fun s =>
  waitforAux env prompt (s.chunks.length + 1) s

/-- Source `expect` (lines 851-877): like `waitfor`, with the consuming
low-level wait. -/
def expectAux (env : Env) (prompt : List Pattern) : Nat → M (Nat × MatchResult)
  | 0 => M.throw Err.fuelExhausted
  | n + 1 => fun s =>
    match expect_low env prompt s with
    | .err .driverReplaced s1 => expectAux env prompt n s1
    | r => r

/-- Source `expect` (lines 851-877), public entry point. -/
def expect (env : Env) (prompt : List Pattern) : M (Nat × MatchResult) := fun s =>
  expectAux env prompt (s.chunks.length + 1) s

/-- Simplified Python `repr` of a string: single quotes around the text (the
source only uses it to embed buffered text in an exception message). -/
def pyRepr (l : Str) : Str := '\x27' :: (l ++ ['\x27'])

/-- The inner loop of `expect_prompt`'s error scan (lines 895-898): iterate
over the error patterns, breaking at the first whose `match(line)` is
truthy.  The loop's `match` variable is initialized to `None` before the
loop and never assigned inside it, so the loop returns its initial value
unchanged; the translation keeps the variable to stay faithful to the
source. -/
def scanInner (errs : List Pattern) (line : Str) (found : Option MatchResult) :
    Option MatchResult :=
  match errs with
  | [] => found
  | p :: rest => if p.matchLine line then found else scanInner rest line found

/-- The outer loop of `expect_prompt`'s error scan (lines 894-903): for each
line of the response after the first (the echo of the command sent), run the
inner loop and raise only when the `match` variable ended up non-`None`. -/
def expect_prompt_scan (response : Str) (errs : List Pattern) : Bool :=
  ((splitNL response).drop 1).any fun line => (scanInner errs line none).isSome

/-- Source `expect_prompt` (lines 879-903): consume a CLI prompt, then scan
the response body for configured error patterns; the scan's raise is
controlled by the never-assigned `match` variable.  The Python method has no
`return` statement, so it evaluates to `None` (`Option.none` here). -/
def expect_prompt (env : Env) : M (Option Str) := fun s =>
  match expect env (get_prompt s) s with
  | .err e s1 => .err e s1
  | .ok _ s1 =>
    if expect_prompt_scan (s1.response.getD []) (get_error_prompt s1) then
      .err (Err.invalidCommand (str "Device said:\n" ++ s1.response.getD [])) s1
    else .ok none s1

/-- Modelled from the spec: the raw transport's `send` is abstract in the
base class (`raise NotImplementedError`); the model records the transmitted
bytes as a trace event. -/
def send (data : Str) : M Unit :=
  M.modify fun s => { s with trace := Ev.sent data :: s.trace }

/-- Source `execute` (lines 787-802): send the command with a carriage
return appended and wait for a prompt in the response; the call returns
whatever `expect_prompt` evaluates to. -/
def execute (env : Env) (command : Str) : M (Option Str) :=
  M.bind (send (command ++ str "\r")) fun _ => expect_prompt env

/-- Source `_get_account` (lines 514-520): resolve the argument against the
most recently used account, raising `TypeError` when neither exists, and
remember the resolution. -/
def get_account (account : Option Account) : M Account := fun s =>
  match account with
  | some a => .ok a { s with last_account := some a }
  | none =>
    match s.last_account with
    | some a => .ok a { s with last_account := some a }
    | none => .err (Err.typeError (str "An account is required")) s

/-- Source `_protocol_authenticate` (lines 548-549): a hook overridden by
protocol subclasses; modelled as the corresponding trace event. -/
def protocol_authenticate (user password : Str) : M Unit :=
  M.modify fun s => { s with trace := Ev.protoAuth user password :: s.trace }

/-- Source `_protocol_authenticate_by_key` (lines 551-552): a hook
overridden by protocol subclasses; modelled as the corresponding trace
event. -/
def protocol_authenticate_by_key (user key : Str) : M Unit :=
  M.modify fun s => { s with trace := Ev.protoAuthKey user key :: s.trace }

/-- Source `_otp_cb` (lines 296-297): fires the `otp_requested_event`. -/
def otp_cb (seq : Nat) (seed : Str) : M Unit :=
  M.modify fun s => { s with trace := Ev.otpRequested seq seed :: s.trace }

/-- Lines 567-577 of `authenticate` after account resolution: run the
key-based protocol-authentication hook when a key is present and the
password-based one otherwise (key takes precedence), then set
`authenticated` — the two mutations merged into one state update. -/
def authState (acc : Account) (s1 : St) : St :=
  { s1 with authenticated := true,
            trace := (match acc.key with
                      | none => Ev.protoAuth acc.name acc.password
                      | some k => Ev.protoAuthKey acc.name k) :: s1.trace }

/-- Source `authenticate` (lines 554-579): resolve the account, perform
key-based protocol authentication when a key is present and password-based
otherwise, set `authenticated`, and only then, when `flush` was requested,
wait for (and consume) a prompt. -/
def authenticate (env : Env) (account : Option Account) (flush : Bool) : M Unit := fun s =>
  match get_account account s with
  | .err e s1 => .err e s1
  | .ok acc s1 =>
    let s3 := authState acc s1
    if flush then
      match expect_prompt env s3 with
      | .ok _ s4 => .ok () s4
      | .err e s4 => .err e s4
    else .ok () s3

/-- Outcome of one iteration of `_app_authenticate`'s `while True` loop:
Python `break` or an implicit `continue`. -/
inductive LoopCtl where
  | brk : LoopCtl
  | cont : LoopCtl
deriving DecidableEq, Repr

/-- The `prompts` tuple built at the top of every `_app_authenticate`
iteration (lines 597-601): the five categories in their fixed order, each
with its current pattern set (profile value or manual override; the
challenge category is always the module-level `_skey_re` alone). -/
def race_sections (s : St) : List (Str × List Pattern) :=
  [(str "login-error", get_login_error_prompt s),
   (str "username", get_username_prompt s),
   (str "skey", [Pattern.skey]),
   (str "password", get_password_prompt s),
   (str "cli", get_prompt s)]

/-- The `prompt_map` list of lines 602-607: category order preserved,
within-category order preserved. -/
def race_prompt_map (s : St) : List (Str × Pattern) :=
  (race_sections s).foldr (fun sp acc => (sp.2.map fun p => (sp.1, p)) ++ acc) []

/-- The flattened `prompt_list` of lines 602-607. -/
def race_prompt_list (s : St) : List Pattern :=
  (race_prompt_map s).map (·.2)

/-- One iteration of `_app_authenticate`'s loop (lines 592-669): build the
prompt race, run the peek-mode wait, and dispatch on the matched category.
`TimeoutException` is re-raised with the buffered text;
`DriverReplacedException` turns into a retry (`cont`);
`ExpectCancelledException`, `EOFError` and any other failure propagate.
The username/challenge/password branches consume their prompt with a public
`expect` and transmit the reply with a trailing carriage return; the
challenge branch additionally parses `(sequence, seed)` from groups 1 and 2,
fires the OTP event, computes the response with the external `otp`
collaborator, and consumes the subsequent password prompt before sending.
The `cli` branch breaks without consuming. -/
def app_auth_once (env : Env) (user password : Str) : M LoopCtl := fun s =>
  match waitfor_low env (race_prompt_list s) s with
  | .err (.timeoutError _) s1 =>
    let s2 := if s1.response = none then { s1 with response := some [] } else s1
    .err (Err.timeoutError (str "Buffer: " ++ pyRepr (s2.response.getD []))) s2
  | .err .driverReplaced s1 => .ok .cont s1
  | .err e s1 => .err e s1
  | .ok (index, mres) s1 =>
    match (race_prompt_map s).get? index with
    | none => .err (Err.pyError (str "IndexError")) s1
    | some secp =>
      if secp.1 = str "login-error" then
        .err (Err.loginFailure (str "Login failed")) s1
      else if secp.1 = str "username" then
        (M.bind (expect env [secp.2]) fun _ =>
         M.bind (send (user ++ str "\r")) fun _ =>
         M.pure LoopCtl.cont) s1
      else if secp.1 = str "skey" then
        (M.bind (expect env [secp.2]) fun _ =>
         let seq := digitsToNat mres.g1
         let seed := mres.g2
         M.bind (otp_cb seq seed) fun _ =>
         let phrase := env.otp password seed seq
         M.bind (fun t => expect env (get_password_prompt t) t) fun _ =>
         M.bind (send (phrase ++ str "\r")) fun _ =>
         M.pure LoopCtl.cont) s1
      else if secp.1 = str "password" then
        (M.bind (expect env [secp.2]) fun _ =>
         M.bind (send (password ++ str "\r")) fun _ =>
         M.pure LoopCtl.cont) s1
      else if secp.1 = str "cli" then
        .ok LoopCtl.brk s1
      else
        .err (Err.pyError (str "assert False")) s1

/-- The `while True` loop of `_app_authenticate` (lines 592-669), with the
iteration bound made explicit (the source's loop is unbounded; exhausting
the bound raises the modelling-artifact error `fuelExhausted`). -/
def app_auth_loop (env : Env) (user password : Str) : Nat → M Unit
  | 0 => M.throw Err.fuelExhausted
  | n + 1 => fun s =>
    match app_auth_once env user password s with
    | .ok .brk s1 => .ok () s1
    | .ok .cont s1 => app_auth_loop env user password n s1
    | .err e s1 => .err e s1

/-- Source `_app_authenticate` (lines 591-672): the prompt-race loop,
followed — only when `flush` is set — by one terminal `expect_prompt`. -/
def app_authenticate_low (env : Env) (fuel : Nat) (user password : Str)
    (flush : Bool) : M Unit := fun s =>
  match app_auth_loop env user password fuel s with
  | .err e s1 => .err e s1
  | .ok _ s1 =>
    if flush then
      match expect_prompt env s1 with
      | .ok _ s2 => .ok () s2
      | .err e s2 => .err e s2
    else .ok () s1

/-- Source `app_authenticate` (lines 674-708): resolve the account, run the
race on `(name, password)`, set `app_authenticated`. -/
def app_authenticate (env : Env) (fuel : Nat) (account : Option Account)
    (flush : Bool) : M Unit := fun s =>
  match get_account account s with
  | .err e s1 => .err e s1
  | .ok acc s1 =>
    match app_authenticate_low env fuel acc.name acc.password flush s1 with
    | .err e s2 => .err e s2
    | .ok _ s2 => .ok () { s2 with app_authenticated := true }

/-- Source `auto_app_authorize` (lines 742-763): resolve the account and
delegate to the active driver's `auto_authorize` procedure (external;
modelled as a trace event naming the driver). -/
def auto_app_authorize (env : Env) (account : Option Account) (flush : Bool) :
    M Unit := fun s =>
  match get_account account s with
  | .err e s1 => .err e s1
  | .ok acc s1 =>
    .ok () { s1 with trace := Ev.autoAuthorize (get_driver s1).name acc.name flush :: s1.trace }

/-- Source `login` (lines 522-546): resolve the account, default the
app-level account to it, then the fixed pipeline
`authenticate(account, flush=False)`,
`app_authenticate(app_account, flush=False)`,
`auto_app_authorize(app_account, flush=flush)`. -/
def login (env : Env) (fuel : Nat) (account app_account : Option Account)
    (flush : Bool) : M Unit := fun s =>
  match get_account account s with
  | .err e s1 => .err e s1
  | .ok acc s1 =>
    let app := match app_account with | none => acc | some x => x
    (M.bind (authenticate env (some acc) false) fun _ =>
     M.bind (app_authenticate env fuel (some app) false) fun _ =>
     auto_app_authorize env (some app) flush) s1

/-! Concrete fixtures used to evaluate the model on explicit inputs: a
fallback driver, a second driver the OS guesser can switch to, an
environment, and a blank session state. -/

/-- A concrete fallback driver. -/
def drvA : Driver :=
  { name := str "generic"
    user_re := [.lit (str "sername:")]
    password_re := [.lit (str "assword:")]
    prompt_re := [.lit (str "outer> ")]
    error_re := [.lit (str "ERROR")]
    login_error_re := [.lit (str "ncorrect")] }

/-- A concrete driver the evidence accumulator can switch to. -/
def drvB : Driver := { drvA with name := str "ios" }

/-- A concrete environment: the guess switches to `ios` once the literal
chunk `IOS` has been observed, no data-received subscriber cancels, and the
one-time-password function concatenates password and seed. -/
def envA : Env :=
  { otp := fun p sd _ => p ++ sd
    driver_map := fun n => if n = str "ios" then drvB else drvA
    osGuess := fun ev => if (str "IOS") ∈ ev then str "ios" else str "generic"
    cancelOnData := fun _ => false }

/-- A blank session state over the fallback driver. -/
def st0 : St :=
  { buffer := []
    chunks := []
    closed := false
    response := none
    authenticated := false
    app_authenticated := false
    app_authorized := false
    manual_user_re := none
    manual_password_re := none
    manual_prompt_re := none
    manual_error_re := none
    manual_login_error_re := none
    driver_replaced := false
    cancel := false
    manual_driver := none
    auto_driver := drvA
    last_account := none
    osEvidence := []
    trace := [] }

/-- State whose device response contains an error line after the command
echo: the response will read `show ver`, newline, an `ERROR:` line, newline,
the CLI prompt. -/
def s1c : St := { st0 with buffer := str "show ver\nERROR: invalid input\nrouter> " }

/-- State for exercising a wait that times out: no configured pattern ever
matches the buffered text. -/
def s3t : St := { st0 with buffer := str "abc", chunks := [str "noise"] }

/-- State for exercising a driver replacement: the pending chunk flips the
OS guess. -/
def s3d : St := { st0 with chunks := [str "IOS"] }

/-- State whose buffer holds a device response for `execute`. -/
def s4x : St := { st0 with buffer := str "show ver\nuptime 5 days\nrouter> " }

/-- State whose buffer opens with an s/key challenge and whose device will
follow with a password prompt. -/
def s5k : St := { st0 with buffer := str "s/key 97 th91334\n", chunks := [str "Password: "] }

/-- State whose buffer already shows a CLI prompt, so the prompt race ends
on the `cli` category at once. -/
def s7b : St := { st0 with buffer := str "router> " }

/-- State for a prompt race that times out with text in the buffer. -/
def s8t : St := { st0 with buffer := str "ab", chunks := [str "cd"] }

/-- State with a manually pinned driver, about to observe evidence that
flips the automatic guess. -/
def s10p : St := { st0 with manual_driver := some drvA }

/-! Helper lemmas about results, the notification path, the error scan and
the pattern race. -/

/-- A result whose recorded exception is `e` is that exception with its own
final state. -/
theorem Res.err?_some {α : Type} {r : Res α} {e : Err} (h : r.err? = some e) :
    r = .err e r.state := by
  cases r with
  | ok a s => simp [Res.err?] at h
  | err f s => simp [Res.err?] at h; subst h; rfl

/-- A result whose recorded value is `a` is a normal return of `a` with its
own final state. -/
theorem Res.val?_some {α : Type} {r : Res α} {a : α} (h : r.val? = some a) :
    r = .ok a r.state := by
  cases r with
  | ok b s => simp [Res.val?] at h; subst h; rfl
  | err f s => simp [Res.val?] at h

/-- A successful `Unit` result is a normal return with its own final
state. -/
theorem Res.isOk_unit {r : Res Unit} (h : r.isOk = true) : r = .ok () r.state := by
  cases r with
  | ok a s => rfl
  | err f s => simp [Res.isOk] at h

/-- Projections of `cancel_expect`: only the cancel flag and the trace
change. -/
@[simp] theorem cancel_expect_proj (s : St) :
    (cancel_expect s).chunks = s.chunks ∧
    (cancel_expect s).buffer = s.buffer ∧
    (cancel_expect s).response = s.response ∧
    (cancel_expect s).closed = s.closed ∧
    (cancel_expect s).manual_user_re = s.manual_user_re ∧
    (cancel_expect s).manual_password_re = s.manual_password_re ∧
    (cancel_expect s).manual_prompt_re = s.manual_prompt_re ∧
    (cancel_expect s).manual_error_re = s.manual_error_re ∧
    (cancel_expect s).manual_login_error_re = s.manual_login_error_re ∧
    (cancel_expect s).manual_driver = s.manual_driver ∧
    (cancel_expect s).auto_driver = s.auto_driver ∧
    (cancel_expect s).last_account = s.last_account ∧
    (cancel_expect s).authenticated = s.authenticated ∧
    (cancel_expect s).app_authenticated = s.app_authenticated ∧
    (cancel_expect s).app_authorized = s.app_authorized ∧
    (cancel_expect s).osEvidence = s.osEvidence ∧
    (cancel_expect s).driver_replaced = s.driver_replaced ∧
    (cancel_expect s).cancel = true ∧
    (cancel_expect s).trace = Ev.cancelExpect :: s.trace ∧
    get_driver (cancel_expect s) = get_driver s := by
  refine ⟨rfl, rfl, rfl, rfl, rfl, rfl, rfl, rfl, rfl, rfl, rfl, rfl, rfl, rfl, rfl, rfl,
    rfl, rfl, rfl, rfl⟩

/-- Projections of `_driver_replaced_notify`: both abort flags set, the
cancellation recorded, nothing else changed. -/
@[simp] theorem driver_replaced_notify_proj (s : St) :
    (driver_replaced_notify s).chunks = s.chunks ∧
    (driver_replaced_notify s).buffer = s.buffer ∧
    (driver_replaced_notify s).response = s.response ∧
    (driver_replaced_notify s).closed = s.closed ∧
    (driver_replaced_notify s).manual_user_re = s.manual_user_re ∧
    (driver_replaced_notify s).manual_password_re = s.manual_password_re ∧
    (driver_replaced_notify s).manual_prompt_re = s.manual_prompt_re ∧
    (driver_replaced_notify s).manual_error_re = s.manual_error_re ∧
    (driver_replaced_notify s).manual_login_error_re = s.manual_login_error_re ∧
    (driver_replaced_notify s).manual_driver = s.manual_driver ∧
    (driver_replaced_notify s).auto_driver = s.auto_driver ∧
    (driver_replaced_notify s).last_account = s.last_account ∧
    (driver_replaced_notify s).authenticated = s.authenticated ∧
    (driver_replaced_notify s).app_authenticated = s.app_authenticated ∧
    (driver_replaced_notify s).app_authorized = s.app_authorized ∧
    (driver_replaced_notify s).osEvidence = s.osEvidence ∧
    (driver_replaced_notify s).driver_replaced = true ∧
    (driver_replaced_notify s).cancel = true ∧
    (driver_replaced_notify s).trace = Ev.cancelExpect :: s.trace ∧
    get_driver (driver_replaced_notify s) = get_driver s := by
  refine ⟨rfl, rfl, rfl, rfl, rfl, rfl, rfl, rfl, rfl, rfl, rfl, rfl, rfl, rfl, rfl, rfl,
    rfl, rfl, rfl, rfl⟩

/-- Projections of `osUpdate`: only the evidence and the automatic driver
change. -/
@[simp] theorem osUpdate_proj (env : Env) (d : Str) (s : St) :
    (osUpdate env d s).chunks = s.chunks ∧
    (osUpdate env d s).buffer = s.buffer ∧
    (osUpdate env d s).response = s.response ∧
    (osUpdate env d s).closed = s.closed ∧
    (osUpdate env d s).manual_user_re = s.manual_user_re ∧
    (osUpdate env d s).manual_password_re = s.manual_password_re ∧
    (osUpdate env d s).manual_prompt_re = s.manual_prompt_re ∧
    (osUpdate env d s).manual_error_re = s.manual_error_re ∧
    (osUpdate env d s).manual_login_error_re = s.manual_login_error_re ∧
    (osUpdate env d s).manual_driver = s.manual_driver ∧
    (osUpdate env d s).last_account = s.last_account ∧
    (osUpdate env d s).authenticated = s.authenticated ∧
    (osUpdate env d s).app_authenticated = s.app_authenticated ∧
    (osUpdate env d s).app_authorized = s.app_authorized ∧
    (osUpdate env d s).driver_replaced = s.driver_replaced ∧
    (osUpdate env d s).cancel = s.cancel ∧
    (osUpdate env d s).trace = s.trace ∧
    (osUpdate env d s).osEvidence = s.osEvidence ++ [d] ∧
    (osUpdate env d s).auto_driver = env.driver_map (env.osGuess (s.osEvidence ++ [d])) := by
  refine ⟨rfl, rfl, rfl, rfl, rfl, rfl, rfl, rfl, rfl, rfl, rfl, rfl, rfl, rfl, rfl, rfl,
    rfl, rfl, rfl⟩

/-- Updating the trace does not change the active driver. -/
@[simp] theorem get_driver_trace (s : St) (t : List Ev) :
    get_driver { s with trace := t } = get_driver s := rfl

/-- The callback's result, case by case on whether the active driver changed
and whether a subscriber cancelled. -/
theorem receive_cb_cases (env : Env) (d : Str) (s : St) :
    receive_cb env d s =
      (let s2 := osUpdate env (clean d) s
       let s3 := if get_driver s ≠ get_driver s2 then driver_replaced_notify s2 else s2
       let s4 := { s3 with trace := Ev.dataReceived (clean d) :: s3.trace }
       if env.cancelOnData (clean d) then cancel_expect s4 else s4) := rfl

/-- The data-received callback does not touch the parts of the state that
belong to the orchestrator or the wait engine proper. -/
theorem receive_cb_basic (env : Env) (d : Str) (s : St) :
    (receive_cb env d s).chunks = s.chunks ∧
    (receive_cb env d s).buffer = s.buffer ∧
    (receive_cb env d s).response = s.response ∧
    (receive_cb env d s).closed = s.closed ∧
    (receive_cb env d s).manual_user_re = s.manual_user_re ∧
    (receive_cb env d s).manual_password_re = s.manual_password_re ∧
    (receive_cb env d s).manual_prompt_re = s.manual_prompt_re ∧
    (receive_cb env d s).manual_error_re = s.manual_error_re ∧
    (receive_cb env d s).manual_login_error_re = s.manual_login_error_re ∧
    (receive_cb env d s).manual_driver = s.manual_driver ∧
    (receive_cb env d s).last_account = s.last_account ∧
    (receive_cb env d s).authenticated = s.authenticated ∧
    (receive_cb env d s).app_authenticated = s.app_authenticated ∧
    (receive_cb env d s).app_authorized = s.app_authorized := by
  rw [receive_cb_cases]
  dsimp only
  split <;> split <;> simp

/-- If the data-received callback left the driver-replaced flag cleared, the
active driver did not change. -/
theorem receive_cb_driver (env : Env) (d : Str) (s : St)
    (h : (receive_cb env d s).driver_replaced = false) :
    get_driver (receive_cb env d s) = get_driver s ∧ s.driver_replaced = false := by
  rw [receive_cb_cases] at h ⊢
  dsimp only at h ⊢
  by_cases hne : get_driver s ≠ get_driver (osUpdate env (clean d) s)
  · rw [if_pos hne] at h
    split at h <;> simp at h
  · rw [if_neg hne] at h ⊢
    rw [not_not] at hne
    constructor
    · have hx : get_driver (osUpdate env (clean d) s) = get_driver s := hne.symm
      split <;>
      · rcases hm : s.manual_driver with _ | x <;>
          simp [get_driver, osUpdate, hm] at hx ⊢ <;> simp [hx]
    · split at h <;> simpa using h

/-- The data-received callback only prepends to the event trace. -/
theorem receive_cb_trace (env : Env) (d : Str) (s : St) :
    ∃ l, (receive_cb env d s).trace = l ++ s.trace := by
  rw [receive_cb_cases]
  dsimp only
  split <;> split
  · exact ⟨[Ev.cancelExpect, Ev.dataReceived (clean d), Ev.cancelExpect], by simp⟩
  · exact ⟨[Ev.cancelExpect, Ev.dataReceived (clean d)], by simp⟩
  · exact ⟨[Ev.dataReceived (clean d), Ev.cancelExpect], by simp⟩
  · exact ⟨[Ev.dataReceived (clean d)], by simp⟩


/-- The inner loop of the error scan returns its initial `match` value: the
loop body never assigns the variable. -/
theorem scanInner_eq (errs : List Pattern) (line : Str) (found : Option MatchResult) :
    scanInner errs line found = found := by
  induction errs with
  | nil => rfl
  | cons p rest ih => unfold scanInner; split <;> simp [ih]

/-- The error scan of `expect_prompt` can never report an error: its raise
is controlled by a variable that is `None` on every path. -/
theorem expect_prompt_scan_false (response : Str) (errs : List Pattern) :
    expect_prompt_scan response errs = false := by
  simp [expect_prompt_scan, scanInner_eq]

/-- The pattern found by the race is the pattern stored at the returned
index, and it matches the text. -/
theorem findMatchAux_spec (pats : List Pattern) (buf : Str) :
    ∀ i j r, findMatchAux pats buf i = some (j, r) →
      i ≤ j ∧ ∃ p, pats.get? (j - i) = some p ∧ p.search buf = some r := by
  induction pats with
  | nil => intro i j r h; simp [findMatchAux] at h
  | cons p ps ih =>
    intro i j r h
    unfold findMatchAux at h
    cases hs : p.search buf with
    | some m =>
      rw [hs] at h
      simp at h
      obtain ⟨h1, h2⟩ := h
      subst h1; subst h2
      exact ⟨le_refl _, p, by simp, hs⟩
    | none =>
      rw [hs] at h
      obtain ⟨hle, q, hq, hqs⟩ := ih (i + 1) j r h
      refine ⟨by omega, q, ?_, hqs⟩
      have : j - i = (j - (i + 1)) + 1 := by omega
      rw [this]
      simpa using hq

/-- Two states agreeing on the driver fields have the same active driver. -/
theorem get_driver_congr {s1 s : St} (h1 : s1.manual_driver = s.manual_driver)
    (h2 : s1.auto_driver = s.auto_driver) : get_driver s1 = get_driver s := by
  unfold get_driver
  rw [h1, h2]

/-- Compilation of patterns is the identity on the model's patterns. -/
@[simp] theorem to_regexs_eq (l : List Pattern) : to_regexs l = l := rfl

/-- A successful match outcome determines its components. -/
theorem matchHit_ok (pending : List Str) (co : Bool) (j : Nat) (m : MatchResult)
    (s : St) (i : Nat) (r : MatchResult) (s1 : St)
    (h : matchHit pending co j m s = .ok (i, r) s1) :
    i = j ∧ r = m ∧
      s1 = (if co then
              { s with chunks := pending, response := some (s.buffer.take m.endPos),
                       buffer := s.buffer.drop m.endPos }
            else
              { s with chunks := pending, response := some (s.buffer.take m.endPos) }) := by
  unfold matchHit at h
  cases co <;> simp at h <;> obtain ⟨⟨hj, hm⟩, hs⟩ := h <;> subst hj <;> subst hm <;>
    subst hs <;> exact ⟨rfl, rfl, by simp⟩

/-- A match outcome is never an exception. -/
theorem matchHit_ne_err (pending : List Str) (co : Bool) (j : Nat) (m : MatchResult)
    (s : St) (e : Err) (s1 : St) : matchHit pending co j m s ≠ .err e s1 := by
  unfold matchHit
  cases co <;> simp

/-- A successful wait leaves the override and driver configuration intact,
records the text through the end of the match in `response`, and the match
was found by the pattern race on the accumulated buffer (which the wait
consumed through the end of the match exactly when in consume mode). -/
theorem domatchAux_ok (env : Env) (pats : List Pattern) (co : Bool) :
    ∀ pending s i r s1, domatchAux env pats co pending s = .ok (i, r) s1 →
      (s1.manual_user_re = s.manual_user_re ∧
       s1.manual_password_re = s.manual_password_re ∧
       s1.manual_prompt_re = s.manual_prompt_re ∧
       s1.manual_error_re = s.manual_error_re ∧
       s1.manual_login_error_re = s.manual_login_error_re ∧
       s1.manual_driver = s.manual_driver ∧
       get_driver s1 = get_driver s ∧
       s1.closed = s.closed) ∧
      ∃ B, findMatch pats B = some (i, r) ∧
        s1.response = some (B.take r.endPos) ∧
        s1.buffer = (if co then B.drop r.endPos else B) := by
  intro pending
  induction pending with
  | nil =>
    intro s i r s1 h
    rw [domatchAux] at h
    cases hf : findMatch pats s.buffer with
    | some ir =>
      rw [hf] at h
      obtain ⟨j, m⟩ := ir
      dsimp only at h
      obtain ⟨hi, hr, hs⟩ := matchHit_ok _ _ _ _ _ _ _ _ h
      subst hi; subst hr; subst hs
      cases co <;>
        exact ⟨⟨rfl, rfl, rfl, rfl, rfl, rfl, rfl, rfl⟩, s.buffer, hf, by simp⟩
    | none =>
      rw [hf] at h
      dsimp only at h
      unfold noData at h
      split at h <;> simp at h
  | cons c rest ih =>
    intro s i r s1 h
    rw [domatchAux] at h
    cases hf : findMatch pats s.buffer with
    | some ir =>
      rw [hf] at h
      obtain ⟨j, m⟩ := ir
      dsimp only at h
      obtain ⟨hi, hr, hs⟩ := matchHit_ok _ _ _ _ _ _ _ _ h
      subst hi; subst hr; subst hs
      cases co <;>
        exact ⟨⟨rfl, rfl, rfl, rfl, rfl, rfl, rfl, rfl⟩, s.buffer, hf, by simp⟩
    | none =>
      rw [hf] at h
      dsimp only at h
      split at h
      · simp at h
      · split at h
        · simp at h
        · rename_i hdr hcl
          have hmid := ih _ i r s1 h
          have hb := receive_cb_basic env c { s with chunks := rest, buffer := s.buffer ++ clean c }
          have hdr2 : (receive_cb env c { s with chunks := rest, buffer := s.buffer ++ clean c }).driver_replaced = false := by
            revert hdr
            cases (receive_cb env c { s with chunks := rest, buffer := s.buffer ++ clean c }).driver_replaced <;> simp
          have hgd := receive_cb_driver env c { s with chunks := rest, buffer := s.buffer ++ clean c } hdr2
          obtain ⟨⟨f1, f2, f3, f4, f5, f6, f7, f8⟩, B, hB, hresp, hbuf⟩ := hmid
          refine ⟨⟨?_, ?_, ?_, ?_, ?_, ?_, ?_, ?_⟩, B, hB, hresp, hbuf⟩
          · rw [f1, hb.2.2.2.2.1]
          · rw [f2, hb.2.2.2.2.2.1]
          · rw [f3, hb.2.2.2.2.2.2.1]
          · rw [f4, hb.2.2.2.2.2.2.2.1]
          · rw [f5, hb.2.2.2.2.2.2.2.2.1]
          · rw [f6, hb.2.2.2.2.2.2.2.2.2.1]
          · rw [f7, hgd.1]
            exact get_driver_congr rfl rfl
          · rw [f8, hb.2.2.2.1]

/-- A failed wait fails with one of the engine's four failure modes; a
driver replacement has consumed at least one pending chunk; a timeout
carries the fully accumulated buffer, which is also left in `response`. -/
theorem domatchAux_err (env : Env) (pats : List Pattern) (co : Bool) :
    ∀ pending s e s1, domatchAux env pats co pending s = .err e s1 →
      (e = .driverReplaced ∨ e = .expectCancelled ∨ e = .eofError ∨
        ∃ m, e = .timeoutError m) ∧
      (e = .driverReplaced → s1.chunks.length < pending.length) ∧
      (∀ m, e = .timeoutError m →
        s1.response = some s1.buffer ∧ m = s1.buffer ∧ s1.chunks = []) := by
  intro pending
  induction pending with
  | nil =>
    intro s e s1 h
    rw [domatchAux] at h
    cases hf : findMatch pats s.buffer with
    | some ir =>
      rw [hf] at h
      obtain ⟨j, m⟩ := ir
      dsimp only at h
      exact absurd h (matchHit_ne_err _ _ _ _ _ _ _)
    | none =>
      rw [hf] at h
      dsimp only at h
      unfold noData at h
      split at h <;> simp at h <;> obtain ⟨he, hs⟩ := h <;> subst he <;> subst hs
      · exact ⟨by simp, by simp, by simp⟩
      · refine ⟨Or.inr (Or.inr (Or.inr ⟨s.buffer, rfl⟩)), by simp, ?_⟩
        intro m hm
        cases hm
        exact ⟨rfl, rfl, rfl⟩
  | cons c rest ih =>
    intro s e s1 h
    rw [domatchAux] at h
    cases hf : findMatch pats s.buffer with
    | some ir =>
      rw [hf] at h
      obtain ⟨j, m⟩ := ir
      dsimp only at h
      exact absurd h (matchHit_ne_err _ _ _ _ _ _ _)
    | none =>
      rw [hf] at h
      dsimp only at h
      split at h
      · simp at h
        obtain ⟨he, hs⟩ := h
        subst he; subst hs
        refine ⟨by simp, ?_, by simp⟩
        intro _
        have := (receive_cb_basic env c { s with chunks := rest, buffer := s.buffer ++ clean c }).1
        simp [this]
      · split at h
        · simp at h
          obtain ⟨he, hs⟩ := h
          subst he; subst hs
          exact ⟨by simp, by simp, by simp⟩
        · have hr := ih _ e s1 h
          refine ⟨hr.1, ?_, hr.2.2⟩
          intro he
          exact Nat.lt_trans (hr.2.1 he) (by simp)

/-- A wait only prepends to the event trace. -/
theorem domatchAux_trace (env : Env) (pats : List Pattern) (co : Bool) :
    ∀ pending s, ∃ l, (domatchAux env pats co pending s).state.trace = l ++ s.trace := by
  intro pending
  induction pending with
  | nil =>
    intro s
    rw [domatchAux]
    cases hf : findMatch pats s.buffer with
    | some ir =>
      obtain ⟨j, m⟩ := ir
      dsimp only
      unfold matchHit
      cases co <;> exact ⟨[], rfl⟩
    | none =>
      dsimp only
      unfold noData
      split <;> exact ⟨[], rfl⟩
  | cons c rest ih =>
    intro s
    rw [domatchAux]
    cases hf : findMatch pats s.buffer with
    | some ir =>
      obtain ⟨j, m⟩ := ir
      dsimp only
      unfold matchHit
      cases co <;> exact ⟨[], rfl⟩
    | none =>
      dsimp only
      obtain ⟨l1, hl1⟩ := receive_cb_trace env c { s with chunks := rest, buffer := s.buffer ++ clean c }
      split
      · exact ⟨l1, by simpa using hl1⟩
      · split
        · exact ⟨l1, by simpa using hl1⟩
        · obtain ⟨l2, hl2⟩ := ih (receive_cb env c { s with chunks := rest, buffer := s.buffer ++ clean c })
          exact ⟨l2 ++ l1, by rw [hl2, hl1, List.append_assoc]⟩

/-- The wait primitive is the chunk loop started on the state's own pending
data. -/
theorem domatch_eq (env : Env) (pats : List Pattern) (co : Bool) (s : St) :
    domatch env pats co s = domatchAux env pats co s.chunks s := rfl

/-- The peek-mode low-level wait is the wait primitive (the `OsGuesser`
notification does not change the state). -/
theorem waitfor_low_cases (env : Env) (ps : List Pattern) (s : St) :
    waitfor_low env ps s = domatch env ps false s := by
  unfold waitfor_low
  simp only [to_regexs_eq]
  cases domatch env ps false s <;> rfl

/-- The consume-mode low-level wait is the wait primitive. -/
theorem expect_low_cases (env : Env) (ps : List Pattern) (s : St) :
    expect_low env ps s = domatch env ps true s := by
  unfold expect_low
  simp only [to_regexs_eq]
  cases domatch env ps true s <;> rfl

/-- Failure analysis of the peek-mode low-level wait. -/
theorem waitfor_low_err (env : Env) (ps : List Pattern) {s : St} {e : Err} {s1 : St}
    (h : waitfor_low env ps s = .err e s1) :
    (e = .driverReplaced ∨ e = .expectCancelled ∨ e = .eofError ∨
      ∃ m, e = .timeoutError m) ∧
    (e = .driverReplaced → s1.chunks.length < s.chunks.length) ∧
    (∀ m, e = .timeoutError m →
      s1.response = some s1.buffer ∧ m = s1.buffer ∧ s1.chunks = []) := by
  rw [waitfor_low_cases, domatch_eq] at h
  exact domatchAux_err env ps false s.chunks s e s1 h

/-- Failure analysis of the consume-mode low-level wait. -/
theorem expect_low_err (env : Env) (ps : List Pattern) {s : St} {e : Err} {s1 : St}
    (h : expect_low env ps s = .err e s1) :
    (e = .driverReplaced ∨ e = .expectCancelled ∨ e = .eofError ∨
      ∃ m, e = .timeoutError m) ∧
    (e = .driverReplaced → s1.chunks.length < s.chunks.length) ∧
    (∀ m, e = .timeoutError m →
      s1.response = some s1.buffer ∧ m = s1.buffer ∧ s1.chunks = []) := by
  rw [expect_low_cases, domatch_eq] at h
  exact domatchAux_err env ps true s.chunks s e s1 h

/-- Success analysis of the peek-mode low-level wait: the configuration is
preserved, the buffer is untouched since the match, and the match is still
found on it. -/
theorem waitfor_low_ok (env : Env) (ps : List Pattern) {s : St} {i : Nat}
    {r : MatchResult} {s1 : St} (h : waitfor_low env ps s = .ok (i, r) s1) :
    (s1.manual_user_re = s.manual_user_re ∧
     s1.manual_password_re = s.manual_password_re ∧
     s1.manual_prompt_re = s.manual_prompt_re ∧
     s1.manual_error_re = s.manual_error_re ∧
     s1.manual_login_error_re = s.manual_login_error_re ∧
     s1.manual_driver = s.manual_driver ∧
     get_driver s1 = get_driver s ∧
     s1.closed = s.closed) ∧
    findMatch ps s1.buffer = some (i, r) ∧
    s1.response = some (s1.buffer.take r.endPos) := by
  rw [waitfor_low_cases, domatch_eq] at h
  obtain ⟨hfields, B, hB, hresp, hbuf⟩ := domatchAux_ok env ps false s.chunks s i r s1 h
  rw [if_neg (by simp)] at hbuf
  subst hbuf
  exact ⟨hfields, hB, hresp⟩

/-- Success analysis of the consume-mode low-level wait. -/
theorem expect_low_ok (env : Env) (ps : List Pattern) {s : St} {i : Nat}
    {r : MatchResult} {s1 : St} (h : expect_low env ps s = .ok (i, r) s1) :
    (s1.manual_user_re = s.manual_user_re ∧
     s1.manual_password_re = s.manual_password_re ∧
     s1.manual_prompt_re = s.manual_prompt_re ∧
     s1.manual_error_re = s.manual_error_re ∧
     s1.manual_login_error_re = s.manual_login_error_re ∧
     s1.manual_driver = s.manual_driver ∧
     get_driver s1 = get_driver s ∧
     s1.closed = s.closed) ∧
    ∃ B, findMatch ps B = some (i, r) ∧
      s1.response = some (B.take r.endPos) ∧ s1.buffer = B.drop r.endPos := by
  rw [expect_low_cases, domatch_eq] at h
  obtain ⟨hfields, B, hB, hresp, hbuf⟩ := domatchAux_ok env ps true s.chunks s i r s1 h
  rw [if_pos rfl] at hbuf
  exact ⟨hfields, B, hB, hresp, hbuf⟩

/-- Any outcome of a low-level wait only prepends to the trace. -/
theorem waitfor_low_trace (env : Env) (ps : List Pattern) (s : St) :
    ∃ l, (waitfor_low env ps s).state.trace = l ++ s.trace := by
  rw [waitfor_low_cases, domatch_eq]
  exact domatchAux_trace env ps false s.chunks s

/-- Any outcome of a consuming low-level wait only prepends to the trace. -/
theorem expect_low_trace (env : Env) (ps : List Pattern) (s : St) :
    ∃ l, (expect_low env ps s).state.trace = l ++ s.trace := by
  rw [expect_low_cases, domatch_eq]
  exact domatchAux_trace env ps true s.chunks s

/-- The retry loop of `waitfor` never lets `DriverReplacedException`
escape. -/
theorem waitforAux_no_dr (env : Env) (ps : List Pattern) :
    ∀ n s, (waitforAux env ps n s).err? ≠ some Err.driverReplaced := by
  intro n
  induction n with
  | zero => intro s; simp [waitforAux, M.throw, Res.err?]
  | succ n ih =>
    intro s
    simp only [waitforAux]
    cases hw : waitfor_low env ps s with
    | ok v s1 => simp [Res.err?]
    | err e s1 => cases e <;> simp [Res.err?] <;> exact ih s1

/-- With enough iterations (one more than the pending chunks) the retry loop
of `waitfor` never hits its artificial iteration bound. -/
theorem waitforAux_no_fuel (env : Env) (ps : List Pattern) :
    ∀ n s, s.chunks.length < n →
      (waitforAux env ps n s).err? ≠ some Err.fuelExhausted := by
  intro n
  induction n with
  | zero => intro s h; omega
  | succ n ih =>
    intro s hn
    simp only [waitforAux]
    cases hw : waitfor_low env ps s with
    | ok v s1 => simp [Res.err?]
    | err e s1 =>
      have he := waitfor_low_err env ps hw
      cases e <;> simp [Res.err?]
      · exact ih s1 (by have := he.2.1 rfl; omega)
      · rcases he.1 with h | h | h | ⟨m, h⟩ <;> simp at h

/-- The retry count is irrelevant once it exceeds the pending chunks. -/
theorem waitforAux_congr (env : Env) (ps : List Pattern) :
    ∀ n m s, s.chunks.length < n → s.chunks.length < m →
      waitforAux env ps n s = waitforAux env ps m s := by
  intro n
  induction n with
  | zero => intro m s h; omega
  | succ n ih =>
    intro m s hn hm
    cases m with
    | zero => omega
    | succ m =>
      simp only [waitforAux]
      cases hw : waitfor_low env ps s with
      | ok v s1 => rfl
      | err e s1 =>
        have he := waitfor_low_err env ps hw
        cases e <;> try rfl
        have hlt := he.2.1 rfl
        exact ih m s1 (by omega) (by omega)

/-- The retry loop of `expect` never lets `DriverReplacedException`
escape. -/
theorem expectAux_no_dr (env : Env) (ps : List Pattern) :
    ∀ n s, (expectAux env ps n s).err? ≠ some Err.driverReplaced := by
  intro n
  induction n with
  | zero => intro s; simp [expectAux, M.throw, Res.err?]
  | succ n ih =>
    intro s
    simp only [expectAux]
    cases hw : expect_low env ps s with
    | ok v s1 => simp [Res.err?]
    | err e s1 => cases e <;> simp [Res.err?] <;> exact ih s1

/-- With enough iterations the retry loop of `expect` never hits its
artificial iteration bound. -/
theorem expectAux_no_fuel (env : Env) (ps : List Pattern) :
    ∀ n s, s.chunks.length < n →
      (expectAux env ps n s).err? ≠ some Err.fuelExhausted := by
  intro n
  induction n with
  | zero => intro s h; omega
  | succ n ih =>
    intro s hn
    simp only [expectAux]
    cases hw : expect_low env ps s with
    | ok v s1 => simp [Res.err?]
    | err e s1 =>
      have he := expect_low_err env ps hw
      cases e <;> simp [Res.err?]
      · exact ih s1 (by have := he.2.1 rfl; omega)
      · rcases he.1 with h | h | h | ⟨m, h⟩ <;> simp at h

/-- The retry count is irrelevant once it exceeds the pending chunks. -/
theorem expectAux_congr (env : Env) (ps : List Pattern) :
    ∀ n m s, s.chunks.length < n → s.chunks.length < m →
      expectAux env ps n s = expectAux env ps m s := by
  intro n
  induction n with
  | zero => intro m s h; omega
  | succ n ih =>
    intro m s hn hm
    cases m with
    | zero => omega
    | succ m =>
      simp only [expectAux]
      cases hw : expect_low env ps s with
      | ok v s1 => rfl
      | err e s1 =>
        have he := expect_low_err env ps hw
        cases e <;> try rfl
        have hlt := he.2.1 rfl
        exact ih m s1 (by omega) (by omega)

/-- The public `waitfor` never raises `DriverReplacedException`. -/
theorem waitfor_no_dr (env : Env) (ps : List Pattern) (s : St) :
    (waitfor env ps s).err? ≠ some Err.driverReplaced :=
  waitforAux_no_dr env ps (s.chunks.length + 1) s

/-- The public `waitfor` never hits the artificial iteration bound. -/
theorem waitfor_no_fuel (env : Env) (ps : List Pattern) (s : St) :
    (waitfor env ps s).err? ≠ some Err.fuelExhausted :=
  waitforAux_no_fuel env ps (s.chunks.length + 1) s (Nat.lt_succ_self _)

/-- The public `expect` never raises `DriverReplacedException`. -/
theorem expect_no_dr (env : Env) (ps : List Pattern) (s : St) :
    (expect env ps s).err? ≠ some Err.driverReplaced :=
  expectAux_no_dr env ps (s.chunks.length + 1) s

/-- The public `expect` never hits the artificial iteration bound. -/
theorem expect_no_fuel (env : Env) (ps : List Pattern) (s : St) :
    (expect env ps s).err? ≠ some Err.fuelExhausted :=
  expectAux_no_fuel env ps (s.chunks.length + 1) s (Nat.lt_succ_self _)

/-- Any exception of the low-level wait other than `DriverReplacedException`
propagates through `waitfor` unchanged. -/
theorem waitfor_err (env : Env) (ps : List Pattern) {s : St} {e : Err} {s1 : St}
    (h : waitfor_low env ps s = .err e s1) (he : e ≠ .driverReplaced) :
    waitfor env ps s = .err e s1 := by
  show waitforAux env ps (s.chunks.length + 1) s = .err e s1
  simp only [waitforAux]
  rw [h]
  cases e <;> first | rfl | exact absurd rfl he

/-- A `DriverReplacedException` of the low-level wait makes `waitfor`
transparently restart the same wait on the post-abort state. -/
theorem waitfor_dr_restart (env : Env) (ps : List Pattern) {s s1 : St}
    (h : waitfor_low env ps s = .err .driverReplaced s1) :
    waitfor env ps s = waitfor env ps s1 := by
  have hlt := (waitfor_low_err env ps h).2.1 rfl
  show waitforAux env ps (s.chunks.length + 1) s =
    waitforAux env ps (s1.chunks.length + 1) s1
  simp only [waitforAux]
  rw [h]
  exact waitforAux_congr env ps _ _ s1 (by omega) (Nat.lt_succ_self _)

/-- Any exception of the consuming low-level wait other than
`DriverReplacedException` propagates through `expect` unchanged. -/
theorem expect_err (env : Env) (ps : List Pattern) {s : St} {e : Err} {s1 : St}
    (h : expect_low env ps s = .err e s1) (he : e ≠ .driverReplaced) :
    expect env ps s = .err e s1 := by
  show expectAux env ps (s.chunks.length + 1) s = .err e s1
  simp only [expectAux]
  rw [h]
  cases e <;> first | rfl | exact absurd rfl he

/-- A `DriverReplacedException` of the consuming low-level wait makes
`expect` transparently restart the same wait on the post-abort state. -/
theorem expect_dr_restart (env : Env) (ps : List Pattern) {s s1 : St}
    (h : expect_low env ps s = .err .driverReplaced s1) :
    expect env ps s = expect env ps s1 := by
  have hlt := (expect_low_err env ps h).2.1 rfl
  show expectAux env ps (s.chunks.length + 1) s =
    expectAux env ps (s1.chunks.length + 1) s1
  simp only [expectAux]
  rw [h]
  exact expectAux_congr env ps _ _ s1 (by omega) (Nat.lt_succ_self _)

/-- When the buffer already contains a match, `expect` returns immediately,
consuming exactly the prefix through the end of the match and recording it
in `response`, with no chunk received and nothing else changed. -/
theorem expect_immediate (env : Env) (ps : List Pattern) (t : St) (i : Nat)
    (r : MatchResult) (h : findMatch ps t.buffer = some (i, r)) :
    expect env ps t = Res.ok (i, r)
      { t with response := some (t.buffer.take r.endPos),
               buffer := t.buffer.drop r.endPos } := by
  have hlow : expect_low env ps t = Res.ok (i, r)
      { t with response := some (t.buffer.take r.endPos),
               buffer := t.buffer.drop r.endPos } := by
    rw [expect_low_cases, domatch_eq]
    cases hc : t.chunks with
    | nil =>
      rw [domatchAux, h]
      dsimp only
      unfold matchHit
      rw [if_pos rfl, ← hc]
    | cons c cs =>
      rw [domatchAux, h]
      dsimp only
      unfold matchHit
      rw [if_pos rfl, ← hc]
  show expectAux env ps (t.chunks.length + 1) t = _
  simp only [expectAux]
  rw [hlow]

/-- A successful `expect` leaves a recorded response behind. -/
theorem expectAux_ok_response (env : Env) (ps : List Pattern) :
    ∀ n s v s1, expectAux env ps n s = .ok v s1 → s1.response.isSome = true := by
  intro n
  induction n with
  | zero => intro s v s1 h; simp [expectAux, M.throw] at h
  | succ n ih =>
    intro s v s1 h
    simp only [expectAux] at h
    cases hw : expect_low env ps s with
    | ok w s2 =>
      rw [hw] at h
      dsimp only at h
      obtain ⟨j, m⟩ := w
      injection h with h1 h2
      obtain ⟨_, B, _, hresp, _⟩ := expect_low_ok env ps hw
      rw [← h2, hresp]
      rfl
    | err e s2 =>
      rw [hw] at h
      cases e <;> first
        | exact ih s2 v s1 h
        | simp at h

/-- A successful public `expect` leaves a recorded response behind. -/
theorem expect_ok_response (env : Env) (ps : List Pattern) {s : St}
    {v : Nat × MatchResult} {s1 : St} (h : expect env ps s = .ok v s1) :
    s1.response.isSome = true :=
  expectAux_ok_response env ps (s.chunks.length + 1) s v s1 h

/-- The retry loop of `expect` only prepends to the event trace. -/
theorem expectAux_trace (env : Env) (ps : List Pattern) :
    ∀ n s, ∃ l, (expectAux env ps n s).state.trace = l ++ s.trace := by
  intro n
  induction n with
  | zero => intro s; exact ⟨[], rfl⟩
  | succ n ih =>
    intro s
    simp only [expectAux]
    obtain ⟨l1, hl1⟩ := expect_low_trace env ps s
    cases hw : expect_low env ps s with
    | ok w s2 =>
      rw [hw] at hl1
      exact ⟨l1, hl1⟩
    | err e s2 =>
      rw [hw] at hl1
      simp [Res.state] at hl1
      cases e <;> try exact ⟨l1, hl1⟩
      obtain ⟨l2, hl2⟩ := ih s2
      exact ⟨l2 ++ l1, by rw [hl2, hl1, List.append_assoc]⟩

/-- The public `expect` only prepends to the event trace. -/
theorem expect_trace (env : Env) (ps : List Pattern) (s : St) :
    ∃ l, (expect env ps s).state.trace = l ++ s.trace :=
  expectAux_trace env ps (s.chunks.length + 1) s

/-- If some pattern of the list matches the text, the race finds a match. -/
theorem findMatch_isSome_of_mem {p : Pattern} {pats : List Pattern} {buf : Str}
    (hp : p ∈ pats) (hs : (p.search buf).isSome = true) :
    (findMatch pats buf).isSome = true := by
  have : ∀ i, (findMatchAux pats buf i).isSome = true := by
    induction pats with
    | nil => simp at hp
    | cons q ps ih =>
      intro i
      unfold findMatchAux
      cases hq : q.search buf with
      | some m => simp
      | none =>
        rcases List.mem_cons.mp hp with h | h
        · subst h; rw [hq] at hs; simp at hs
        · exact ih h (i + 1)
  exact this 0

/-- State updates never fail. -/
theorem modify_no_err (f : St → St) (t : St) (e : Err) (s1 : St) :
    M.modify f t ≠ .err e s1 := by
  simp [M.modify]

/-- Composition preserves the absence of `DriverReplacedException`. -/
theorem bind_no_dr {α β : Type} (m : M α) (k : α → M β)
    (hm : ∀ t e s1, m t = .err e s1 → e ≠ Err.driverReplaced)
    (hk : ∀ v t2 e s1, k v t2 = .err e s1 → e ≠ Err.driverReplaced) :
    ∀ t e s1, (M.bind m k) t = .err e s1 → e ≠ Err.driverReplaced := by
  intro t e s1 h
  unfold M.bind at h
  cases hx : m t with
  | ok v t2 => rw [hx] at h; exact hk v t2 e s1 h
  | err e2 t2 =>
    rw [hx] at h
    injection h with h1 h2
    subst h1
    exact hm t e2 t2 hx

/-- The public `expect`, as an error source, never produces
`DriverReplacedException`. -/
theorem expect_err_no_dr (env : Env) (ps : List Pattern) :
    ∀ t e s1, expect env ps t = .err e s1 → e ≠ Err.driverReplaced := by
  intro t e s1 h hc
  exact expect_no_dr env ps t (by rw [h, hc]; rfl)

/-- The index returned by the race addresses the flattened prompt list. -/
theorem race_map_get (s : St) (i : Nat) (sec : Str) (p : Pattern)
    (h : (race_prompt_map s).get? i = some (sec, p)) :
    (race_prompt_list s).get? i = some p := by
  unfold race_prompt_list
  rw [List.get?_map, h]
  rfl

/-- A prompt registered under the `cli` category belongs to the CLI prompt
set used to build the race. -/
theorem race_map_mem_cli (s : St) (p : Pattern)
    (hm : (str "cli", p) ∈ race_prompt_map s) : p ∈ get_prompt s := by
  unfold race_prompt_map race_sections at hm
  simp only [List.foldr_cons, List.foldr_nil, List.append_nil, List.mem_append,
    List.mem_map, List.mem_singleton, Prod.mk.injEq] at hm
  rcases hm with ⟨q, hq, he1, he2⟩ | ⟨q, hq, he1, he2⟩ | ⟨q, hq, he1, he2⟩ |
    ⟨q, hq, he1, he2⟩ | ⟨q, hq, he1, he2⟩
  · exact absurd he1 (by decide)
  · exact absurd he1 (by decide)
  · exact absurd he1 (by decide)
  · exact absurd he1 (by decide)
  · rw [← he2]
    exact hq

/-- The pattern addressed by an index whose category is `cli` belongs to the
CLI prompt set. -/
theorem race_get_cli (s : St) (i : Nat) (p : Pattern)
    (h : (race_prompt_map s).get? i = some (str "cli", p)) : p ∈ get_prompt s :=
  race_map_mem_cli s p (List.get?_mem h)

/-- The send-and-continue tail of a race branch never fails. -/
theorem send_pure_no_dr (d : Str) :
    ∀ (v : Nat × MatchResult) (t2 : St) (e : Err) (s1 : St),
      (M.bind (send d) fun _ => M.pure LoopCtl.cont) t2 = .err e s1 →
        e ≠ Err.driverReplaced := by
  intro v t2 e s1 hx
  simp [M.bind, send, M.modify, M.pure] at hx

/-- Two states agreeing on the prompt override and the active driver use the
same CLI prompt set. -/
theorem get_prompt_congr {s1 s : St} (h1 : s1.manual_prompt_re = s.manual_prompt_re)
    (h2 : get_driver s1 = get_driver s) : get_prompt s1 = get_prompt s := by
  unfold get_prompt
  rw [h1, h2]

/-- Two states agreeing on the password override and the active driver use
the same password prompt set. -/
theorem get_password_prompt_congr {s1 s : St}
    (h1 : s1.manual_password_re = s.manual_password_re)
    (h2 : get_driver s1 = get_driver s) :
    get_password_prompt s1 = get_password_prompt s := by
  unfold get_password_prompt
  rw [h1, h2]

/-- A `DriverReplacedException` of the race's wait turns into a retry of the
loop. -/
theorem app_auth_once_dr (env : Env) (u pw : Str) {s s1 : St}
    (h : waitfor_low env (race_prompt_list s) s = .err .driverReplaced s1) :
    app_auth_once env u pw s = .ok .cont s1 := by
  unfold app_auth_once
  rw [h]

/-- Cancellation and end-of-stream from the race's wait re-raise
unchanged. -/
theorem app_auth_once_passthrough (env : Env) (u pw : Str) {s : St} {e : Err}
    {s1 : St} (h : waitfor_low env (race_prompt_list s) s = .err e s1)
    (he : e = .expectCancelled ∨ e = .eofError) :
    app_auth_once env u pw s = .err e s1 := by
  unfold app_auth_once
  rw [h]
  rcases he with he | he <;> subst he <;> rfl

/-- A timeout of the race's wait re-raises a `TimeoutException` whose
message carries the buffered text (which the wait left in `response`). -/
theorem app_auth_once_timeout (env : Env) (u pw : Str) {s : St} {m : Str}
    {s1 : St} (h : waitfor_low env (race_prompt_list s) s = .err (.timeoutError m) s1) :
    s1.response = some s1.buffer ∧ m = s1.buffer ∧
    app_auth_once env u pw s =
      .err (Err.timeoutError (str "Buffer: " ++ pyRepr s1.buffer)) s1 := by
  obtain ⟨hresp, hm, -⟩ := (waitfor_low_err env _ h).2.2 m rfl
  refine ⟨hresp, hm, ?_⟩
  unfold app_auth_once
  rw [h]
  simp [hresp]

/-- No branch of one race iteration can raise `DriverReplacedException`. -/
theorem app_auth_once_no_dr (env : Env) (u pw : Str) :
    ∀ s e s1, app_auth_once env u pw s = .err e s1 → e ≠ Err.driverReplaced := by
  intro s e s1 h
  unfold app_auth_once at h
  cases hw : waitfor_low env (race_prompt_list s) s with
  | err e2 s2 =>
    rw [hw] at h
    cases e2 <;> dsimp only at h <;>
      first
      | (injection h with h1 h2; subst h1; simp)
      | simp at h
  | ok v s2 =>
    rw [hw] at h
    obtain ⟨index, mres⟩ := v
    dsimp only at h
    cases hg : (race_prompt_map s).get? index with
    | none =>
      rw [hg] at h
      injection h with h1 h2
      subst h1
      simp
    | some secp =>
      rw [hg] at h
      obtain ⟨sec, p⟩ := secp
      dsimp only at h
      split_ifs at h with h1 h2 h3 h4 h5
      · injection h with he1 he2
        subst he1
        simp
      · exact bind_no_dr _ _ (expect_err_no_dr env [p])
          (send_pure_no_dr (u ++ str "\r")) s2 e s1 h
      · exact bind_no_dr _ _ (expect_err_no_dr env [p])
          (fun v2 t2 e2 s3 hx =>
            bind_no_dr _ _ (fun t e3 s4 hx2 => absurd hx2 (modify_no_err _ _ _ _))
              (fun v3 t3 e3 s4 hx2 =>
                bind_no_dr _ _
                  (fun t e4 s5 hx3 =>
                    expect_err_no_dr env (get_password_prompt t) t e4 s5 hx3)
                  (send_pure_no_dr
                    (env.otp pw mres.g2 (digitsToNat mres.g1) ++ str "\r"))
                  t3 e3 s4 hx2)
              t2 e2 s3 hx) s2 e s1 h
      · exact bind_no_dr _ _ (expect_err_no_dr env [p])
          (send_pure_no_dr (pw ++ str "\r")) s2 e s1 h
      · injection h with he1 he2
        subst he1
        simp

/-- When one race iteration breaks out on the `cli` category, the CLI prompt
is still matchable in the final buffer: the race's wait only peeked, and the
`cli` branch performs no consuming `expect`. -/
theorem app_auth_once_brk (env : Env) (u pw : Str) {s s1 : St}
    (h : app_auth_once env u pw s = .ok .brk s1) :
    (findMatch (get_prompt s1) s1.buffer).isSome = true := by
  unfold app_auth_once at h
  cases hw : waitfor_low env (race_prompt_list s) s with
  | err e s2 =>
    rw [hw] at h
    cases e <;> simp at h
  | ok v s2 =>
    rw [hw] at h
    obtain ⟨index, mres⟩ := v
    dsimp only at h
    cases hg : (race_prompt_map s).get? index with
    | none => rw [hg] at h; simp at h
    | some secp =>
      rw [hg] at h
      obtain ⟨sec, p⟩ := secp
      dsimp only at h
      split_ifs at h with h1 h2 h3 h4 h5
      · unfold M.bind at h
        cases hx : expect env [p] s2 <;> rw [hx] at h <;>
          simp [send, M.modify, M.pure] at h
      · unfold M.bind at h
        cases hx : expect env [p] s2 with
        | err e2 t2 => rw [hx] at h; simp at h
        | ok v2 t2 =>
          rw [hx] at h
          dsimp only [otp_cb, M.modify] at h
          cases hx2 : expect env
              (get_password_prompt { t2 with trace := Ev.otpRequested (digitsToNat mres.g1) mres.g2 :: t2.trace })
              { t2 with trace := Ev.otpRequested (digitsToNat mres.g1) mres.g2 :: t2.trace } with
          | err e3 t3 => rw [hx2] at h; simp at h
          | ok v3 t3 => rw [hx2] at h; simp [send, M.modify, M.pure] at h
      · unfold M.bind at h
        cases hx : expect env [p] s2 <;> rw [hx] at h <;>
          simp [send, M.modify, M.pure] at h
      · injection h with hv hs
        subst hs
        obtain ⟨⟨f1, f2, f3, f4, f5, f6, f7, f8⟩, hfm, hresp⟩ := waitfor_low_ok env _ hw
        obtain ⟨-, q, hq, hqs⟩ := findMatchAux_spec _ _ 0 index mres hfm
        rw [Nat.sub_zero] at hq
        have hlist := race_map_get s index sec p hg
        have hp : p.search s2.buffer = some mres := by
          rw [hlist] at hq
          injection hq with hq1
          rw [← hq1] at hqs
          exact hqs
        have hmem : p ∈ get_prompt s2 := by
          rw [get_prompt_congr f3 f7]
          exact race_get_cli s index p (h5 ▸ hg)
        exact findMatch_isSome_of_mem hmem (by rw [hp]; rfl)

/-- The race loop never lets `DriverReplacedException` escape, whatever its
iteration bound. -/
theorem app_auth_loop_no_dr (env : Env) (u pw : Str) :
    ∀ n s e s1, app_auth_loop env u pw n s = .err e s1 → e ≠ Err.driverReplaced := by
  intro n
  induction n with
  | zero =>
    intro s e s1 h
    unfold app_auth_loop M.throw at h
    injection h with h1 h2
    subst h1
    simp
  | succ n ih =>
    intro s e s1 h
    simp only [app_auth_loop] at h
    cases ho : app_auth_once env u pw s with
    | ok c s2 =>
      rw [ho] at h
      cases c
      · simp at h
      · exact ih s2 e s1 h
    | err e2 s2 =>
      rw [ho] at h
      injection h with h1 h2
      subst h1
      exact app_auth_once_no_dr env u pw s e2 s2 ho

/-- A race loop that finished normally did so through the `cli` branch, so
the CLI prompt is still matchable in the final buffer. -/
theorem app_auth_loop_ok (env : Env) (u pw : Str) :
    ∀ n s s1, app_auth_loop env u pw n s = .ok () s1 →
      (findMatch (get_prompt s1) s1.buffer).isSome = true := by
  intro n
  induction n with
  | zero => intro s s1 h; simp [app_auth_loop, M.throw] at h
  | succ n ih =>
    intro s s1 h
    simp only [app_auth_loop] at h
    cases ho : app_auth_once env u pw s with
    | ok c s2 =>
      rw [ho] at h
      cases c
      · injection h with h1 h2
        subst h2
        exact app_auth_once_brk env u pw ho
      · exact ih s2 s1 h
    | err e2 s2 => rw [ho] at h; simp at h

/-- When the inner `expect` of `expect_prompt` succeeds, `expect_prompt`
returns `None` with that state: the subsequent error scan can never
raise. -/
theorem expect_prompt_ok (env : Env) (s : St) {v : Nat × MatchResult} {s2 : St}
    (hx : expect env (get_prompt s) s = .ok v s2) :
    expect_prompt env s = .ok none s2 := by
  unfold expect_prompt
  rw [hx]
  simp [expect_prompt_scan_false]

/-- When the inner `expect` of `expect_prompt` fails, the exception
propagates unchanged. -/
theorem expect_prompt_err (env : Env) (s : St) {e : Err} {s2 : St}
    (hx : expect env (get_prompt s) s = .err e s2) :
    expect_prompt env s = .err e s2 := by
  unfold expect_prompt
  rw [hx]

/-- A successful `expect_prompt` returns `None` and leaves a recorded
response. -/
theorem expect_prompt_ok_inv (env : Env) (t : St) {v : Option Str} {s1 : St}
    (h : expect_prompt env t = .ok v s1) :
    v = none ∧ s1.response.isSome = true := by
  unfold expect_prompt at h
  cases hx : expect env (get_prompt t) t with
  | err e s2 => rw [hx] at h; simp at h
  | ok w s2 =>
    rw [hx] at h
    simp only [expect_prompt_scan_false, if_false, Bool.false_eq_true] at h
    injection h with h1 h2
    subst h1
    subst h2
    exact ⟨rfl, expect_ok_response env (get_prompt t) hx⟩

/-- The prompt consumption of `expect_prompt` never raises
`DriverReplacedException`. -/
theorem expect_prompt_no_dr (env : Env) :
    ∀ s e s1, expect_prompt env s = .err e s1 → e ≠ Err.driverReplaced := by
  intro s e s1 h
  unfold expect_prompt at h
  cases hx : expect env (get_prompt s) s with
  | ok v s2 => rw [hx] at h; simp [expect_prompt_scan_false] at h
  | err e2 s2 =>
    rw [hx] at h
    injection h with h1 h2
    subst h1
    exact expect_err_no_dr env (get_prompt s) s e2 s2 hx

/-- Account resolution fails only with a `TypeError`. -/
theorem get_account_err (acct : Option Account) (s : St) {e : Err} {s1 : St}
    (h : get_account acct s = .err e s1) : ∃ m, e = Err.typeError m := by
  unfold get_account at h
  cases acct with
  | some a => simp at h
  | none =>
    cases hl : s.last_account with
    | some a => rw [hl] at h; simp at h
    | none =>
      rw [hl] at h
      injection h with h1 h2
      exact ⟨str "An account is required", h1.symm⟩

/-- The full `_app_authenticate` never lets `DriverReplacedException`
escape. -/
theorem app_authenticate_low_no_dr (env : Env) (fuel : Nat) (u pw : Str)
    (flush : Bool) :
    ∀ s e s1, app_authenticate_low env fuel u pw flush s = .err e s1 →
      e ≠ Err.driverReplaced := by
  intro s e s1 h
  unfold app_authenticate_low at h
  cases hl : app_auth_loop env u pw fuel s with
  | err e2 s2 =>
    rw [hl] at h
    injection h with h1 h2
    subst h1
    exact app_auth_loop_no_dr env u pw fuel s e2 s2 hl
  | ok v s2 =>
    rw [hl] at h
    dsimp only at h
    cases flush with
    | false => simp at h
    | true =>
      simp only [if_true] at h
      cases hx : expect_prompt env s2 with
      | ok w s3 => rw [hx] at h; simp at h
      | err e3 s3 =>
        rw [hx] at h
        injection h with h1 h2
        subst h1
        exact expect_prompt_no_dr env s2 e3 s3 hx

/-- The public `app_authenticate` never lets `DriverReplacedException`
escape. -/
theorem app_authenticate_no_dr (env : Env) (fuel : Nat) (acct : Option Account)
    (flush : Bool) :
    ∀ s e s1, app_authenticate env fuel acct flush s = .err e s1 →
      e ≠ Err.driverReplaced := by
  intro s e s1 h
  unfold app_authenticate at h
  cases ha : get_account acct s with
  | err e2 s2 =>
    rw [ha] at h
    injection h with h1 h2
    subst h1
    obtain ⟨m, hm⟩ := get_account_err acct s ha
    subst hm
    simp
  | ok a s2 =>
    rw [ha] at h
    dsimp only at h
    cases hl : app_authenticate_low env fuel a.name a.password flush s2 with
    | ok v s3 => rw [hl] at h; simp at h
    | err e3 s3 =>
      rw [hl] at h
      injection h with h1 h2
      subst h1
      exact app_authenticate_low_no_dr env fuel a.name a.password flush s2 e3 s3 hl

/-- When the race's wait matches the challenge category, the iteration is
exactly the source's s/key branch: consume the challenge prompt, fire the
OTP request with the parsed `(sequence, seed)`, consume the following
password prompt, send the computed one-time response with a trailing
carriage return, and continue the loop. -/
theorem app_auth_once_skey (env : Env) (u pw : Str) {s : St} {i : Nat}
    {r : MatchResult} {s1 : St}
    (hw : waitfor_low env (race_prompt_list s) s = .ok (i, r) s1)
    (hg : (race_prompt_map s).get? i = some (str "skey", Pattern.skey)) :
    app_auth_once env u pw s =
      (M.bind (expect env [Pattern.skey]) fun _ =>
       M.bind (otp_cb (digitsToNat r.g1) r.g2) fun _ =>
       M.bind (fun t => expect env (get_password_prompt t) t) fun _ =>
       M.bind (send (env.otp pw r.g2 (digitsToNat r.g1) ++ str "\r")) fun _ =>
       M.pure LoopCtl.cont) s1 := by
  unfold app_auth_once
  rw [hw]
  dsimp only
  rw [hg]
  dsimp only
  rw [if_neg (by decide), if_neg (by decide), if_pos rfl]

/-! Claim theorems. -/

/-- C1: the claim says `execute(command)` fails with
`InvalidCommandException` when some line after the first (echo) line of the
response matches a configured error pattern.  The code cannot do this: the
error scan's local `match` variable (line 895) is initialized to `None` and
never assigned, so `if match is None: continue` always fires and the raise
on line 903 is dead code — the scan reports nothing on every input.  At the
concrete input below, the call returns normally (`None`) even though the
configured error pattern matches the second line of the response. -/
theorem c1_error_scan_dead :
    (∀ resp errs, expect_prompt_scan resp errs = false)
    ∧ (expect_prompt envA s1c).val? = some none
    ∧ ((((splitNL ((expect_prompt envA s1c).state.response.getD [])).drop 1).any
        fun line => (get_error_prompt ((expect_prompt envA s1c).state)).any
          fun p => p.matchLine line) = true) :=
  ⟨expect_prompt_scan_false, by decide, by decide⟩

/-- C2: `login(account, app_account, flush)` resolves the account (storing
it as the most recently used one), defaults the app-level account to it
when absent, and runs exactly the fixed pipeline
`authenticate(account, flush=False)`,
`app_authenticate(app_account, flush=False)`,
`auto_app_authorize(app_account, flush=flush)`, in that order. -/
theorem c2_login_pipeline (env : Env) (fuel : Nat) (a : Account)
    (app_account : Option Account) (flush : Bool) (s : St) :
    login env fuel (some a) app_account flush s =
      (M.bind (authenticate env (some a) false) fun _ =>
       M.bind (app_authenticate env fuel (some (app_account.getD a)) false) fun _ =>
       auto_app_authorize env (some (app_account.getD a)) flush)
      { s with last_account := some a } := by
  cases app_account <;> rfl

/-- C3: `DriverReplacedException` is never propagated to the caller of a
public wait-based operation — `waitfor`, `expect` and the app-auth race loop
absorb it and transparently restart the same wait — while every other
failure (timeout, cancellation, end-of-stream, login failure) propagates to
the caller. -/
theorem c3_driver_replaced_policy (env : Env) (prompt : List Pattern)
    (u pw : Str) (sA sB : St) (e1 e2 : Err) (fuel : Nat)
    (hw : (waitfor_low env prompt sA).err? = some e1)
    (he1 : e1 ≠ Err.driverReplaced)
    (hx : (expect_low env prompt sA).err? = some e2)
    (he2 : e2 ≠ Err.driverReplaced)
    (hr : (waitfor_low env (race_prompt_list sB) sB).err? = some Err.driverReplaced) :
    waitfor env prompt sA = Res.err e1 ((waitfor_low env prompt sA).state)
    ∧ expect env prompt sA = Res.err e2 ((expect_low env prompt sA).state)
    ∧ app_auth_once env u pw sB =
        Res.ok LoopCtl.cont ((waitfor_low env (race_prompt_list sB) sB).state)
    ∧ (∀ ps t, (waitfor env ps t).err? ≠ some Err.driverReplaced)
    ∧ (∀ ps t, (expect env ps t).err? ≠ some Err.driverReplaced)
    ∧ (∀ n t f t1, app_auth_loop env u pw n t = Res.err f t1 → f ≠ Err.driverReplaced)
    ∧ (∀ n acct fl t f t1, app_authenticate env n acct fl t = Res.err f t1 →
        f ≠ Err.driverReplaced)
    ∧ (∀ t t1, waitfor_low env prompt t = Res.err Err.driverReplaced t1 →
        waitfor env prompt t = waitfor env prompt t1)
    ∧ (∀ t t1, expect_low env prompt t = Res.err Err.driverReplaced t1 →
        expect env prompt t = expect env prompt t1)
    ∧ (∀ t f t1, waitfor_low env (race_prompt_list t) t = Res.err f t1 →
        (f = Err.expectCancelled ∨ f = Err.eofError) →
        app_auth_once env u pw t = Res.err f t1) := by
  refine ⟨waitfor_err env prompt (Res.err?_some hw) he1,
    expect_err env prompt (Res.err?_some hx) he2,
    app_auth_once_dr env u pw (Res.err?_some hr),
    fun ps t => waitfor_no_dr env ps t,
    fun ps t => expect_no_dr env ps t,
    fun n t f t1 h => app_auth_loop_no_dr env u pw n t f t1 h,
    fun n acct fl t f t1 h => app_authenticate_no_dr env n acct fl t f t1 h,
    fun t t1 h => waitfor_dr_restart env prompt h,
    fun t t1 h => expect_dr_restart env prompt h,
    fun t f t1 h hor => app_auth_once_passthrough env u pw h hor⟩

/-- C4 (counterexample): the claim says `execute(command)` returns the
device's response text.  At this concrete input the call succeeds, the
response text stored in the `response` attribute is non-empty, the command
was sent with a trailing carriage return — and the value returned is Python
`None`, not the response text: `expect_prompt` has no `return`
statement. -/
theorem c4_execute_returns_none_cex :
    (execute envA (str "show ver") s4x).val? = some none
    ∧ ((execute envA (str "show ver") s4x).state.response.getD []) ≠ []
    ∧ Ev.sent (str "show ver" ++ str "\r") ∈
        (execute envA (str "show ver") s4x).state.trace :=
  ⟨by decide, by decide, by decide⟩

/-- C4 (amended): `execute(command)` sends the command followed by a
carriage return, waits for a prompt in the response, and stores the
device's response text in the `response` attribute; the call itself
evaluates to `None`. -/
theorem c4_execute_amended (env : Env) (cmd : Str) (s : St) :
    execute env cmd s =
      expect_prompt env { s with trace := Ev.sent (cmd ++ str "\r") :: s.trace }
    ∧ (∀ v s1, execute env cmd s = Res.ok v s1 →
        v = none ∧ s1.response.isSome = true) := by
  refine ⟨rfl, ?_⟩
  intro v s1 h
  exact expect_prompt_ok_inv env { s with trace := Ev.sent (cmd ++ str "\r") :: s.trace } h

/-- C5: when the app-authentication race matches the challenge (s/key)
category, the engine consumes the challenge prompt, parses the sequence
number (group 1, via `int`) and seed (group 2) from the match, computes the
one-time response as `otp(password, seed, sequence)`, consumes the
subsequent password prompt, and only then sends the computed response
terminated by a carriage return, before looping.  The send is the last
event of the iteration (head of the trace) and the OTP request event was
fired earlier. -/
theorem c5_skey_flow (env : Env) (u pw : Str) (s : St) (i : Nat)
    (r : MatchResult)
    (hw : (waitfor_low env (race_prompt_list s) s).val? = some (i, r))
    (hg : (race_prompt_map s).get? i = some (str "skey", Pattern.skey)) :
    app_auth_once env u pw s =
      (M.bind (expect env [Pattern.skey]) fun _ =>
       M.bind (otp_cb (digitsToNat r.g1) r.g2) fun _ =>
       M.bind (fun t => expect env (get_password_prompt t) t) fun _ =>
       M.bind (send (env.otp pw r.g2 (digitsToNat r.g1) ++ str "\r")) fun _ =>
       M.pure LoopCtl.cont) ((waitfor_low env (race_prompt_list s) s).state)
    ∧ (∀ s3, app_auth_once env u pw s = Res.ok LoopCtl.cont s3 →
        s3.trace.head? =
          some (Ev.sent (env.otp pw r.g2 (digitsToNat r.g1) ++ str "\r"))
        ∧ Ev.otpRequested (digitsToNat r.g1) r.g2 ∈ s3.trace) := by
  have heq := app_auth_once_skey env u pw (Res.val?_some hw) hg
  refine ⟨heq, ?_⟩
  intro s3 h3
  rw [heq] at h3
  unfold M.bind at h3
  cases hx1 : expect env [Pattern.skey]
      ((waitfor_low env (race_prompt_list s) s).state) with
  | err e t => rw [hx1] at h3; simp at h3
  | ok v1 t1 =>
    rw [hx1] at h3
    dsimp only [otp_cb, M.modify] at h3
    cases hx2 : expect env
        (get_password_prompt
          { t1 with trace := Ev.otpRequested (digitsToNat r.g1) r.g2 :: t1.trace })
        { t1 with trace := Ev.otpRequested (digitsToNat r.g1) r.g2 :: t1.trace } with
    | err e t => rw [hx2] at h3; simp at h3
    | ok v2 t2 =>
      rw [hx2] at h3
      dsimp only [send, M.modify, M.pure] at h3
      injection h3 with hv hs
      subst hs
      refine ⟨rfl, ?_⟩
      obtain ⟨l, hl⟩ := expect_trace env
        (get_password_prompt
          { t1 with trace := Ev.otpRequested (digitsToNat r.g1) r.g2 :: t1.trace })
        { t1 with trace := Ev.otpRequested (digitsToNat r.g1) r.g2 :: t1.trace }
      rw [hx2] at hl
      dsimp only [Res.state] at hl
      rw [List.mem_cons]
      right
      rw [hl]
      simp

/-- C6: `authenticate(account, flush)` resolves the account, performs
key-based protocol authentication when `account.key` is set and
password-based otherwise (key takes precedence), sets
`authenticated = True`, and waits for (and consumes) a prompt only when
`flush` is true: with `flush = False` the call returns at once with the
buffer and pending data untouched, and with `flush = True` it runs exactly
one `expect_prompt` afterwards. -/
theorem c6_authenticate_spec (env : Env) (a : Account) (s : St) :
    authenticate env (some a) false s =
      Res.ok () (authState a { s with last_account := some a })
    ∧ (∀ v s2, expect_prompt env (authState a { s with last_account := some a }) = .ok v s2 →
        authenticate env (some a) true s = Res.ok () s2)
    ∧ (∀ e s2, expect_prompt env (authState a { s with last_account := some a }) = .err e s2 →
        authenticate env (some a) true s = Res.err e s2)
    ∧ (a.key = none → (authState a { s with last_account := some a }).trace =
        Ev.protoAuth a.name a.password :: s.trace)
    ∧ (∀ k, a.key = some k → (authState a { s with last_account := some a }).trace =
        Ev.protoAuthKey a.name k :: s.trace)
    ∧ (authState a { s with last_account := some a }).authenticated = true
    ∧ (authState a { s with last_account := some a }).buffer = s.buffer
    ∧ (authState a { s with last_account := some a }).chunks = s.chunks := by
  refine ⟨rfl, ?_, ?_, ?_, ?_, rfl, rfl, rfl⟩
  · intro v s2 hx
    unfold authenticate get_account
    dsimp only
    rw [if_pos rfl, hx]
  · intro e s2 hx
    unfold authenticate get_account
    dsimp only
    rw [if_pos rfl, hx]
  · intro hk
    unfold authState
    rw [hk]
  · intro k hk
    unfold authState
    rw [hk]

/-- C7: with `flush = False`, a prompt race that ends on the `cli` category
leaves the matched CLI prompt in the receive buffer (the race's wait only
peeks and the `cli` branch performs no consuming `expect`), and
`_app_authenticate` adds nothing after the loop; with `flush = True`,
exactly one additional terminal-prompt wait runs after the loop, consuming
precisely the matched prompt region from the buffer. -/
theorem c7_cli_flush (env : Env) (u pw : Str) (fuel : Nat) (s t : St)
    (h1 : (app_auth_once env u pw s).val? = some LoopCtl.brk)
    (h2 : (app_auth_loop env u pw fuel t).isOk = true) :
    (findMatch (get_prompt ((app_auth_once env u pw s).state))
      ((app_auth_once env u pw s).state).buffer).isSome = true
    ∧ (∀ t2, app_authenticate_low env fuel u pw false t2 = app_auth_loop env u pw fuel t2)
    ∧ (∃ i r, findMatch (get_prompt ((app_auth_loop env u pw fuel t).state))
        ((app_auth_loop env u pw fuel t).state).buffer = some (i, r)
      ∧ app_authenticate_low env fuel u pw true t = Res.ok ()
          { ((app_auth_loop env u pw fuel t).state) with
              response := some ((((app_auth_loop env u pw fuel t).state).buffer).take r.endPos),
              buffer := (((app_auth_loop env u pw fuel t).state).buffer).drop r.endPos }) := by
  have hloop := Res.isOk_unit h2
  refine ⟨app_auth_once_brk env u pw (Res.val?_some h1), ?_, ?_⟩
  · intro t2
    unfold app_authenticate_low
    cases hl : app_auth_loop env u pw fuel t2 with
    | ok v s1 => cases v; rfl
    | err e s1 => rfl
  · have hM := app_auth_loop_ok env u pw fuel t
      ((app_auth_loop env u pw fuel t).state) hloop
    obtain ⟨⟨i, r⟩, hir⟩ := Option.isSome_iff_exists.mp hM
    refine ⟨i, r, hir, ?_⟩
    have hexp := expect_immediate env
      (get_prompt ((app_auth_loop env u pw fuel t).state))
      ((app_auth_loop env u pw fuel t).state) i r (by simpa using hir)
    have hep := expect_prompt_ok env ((app_auth_loop env u pw fuel t).state) hexp
    unfold app_authenticate_low
    rw [hloop]
    dsimp only
    rw [if_pos rfl, hep]
    rfl

/-- C8: when no pattern matches within the timeout during the
app-authentication prompt race, the operation fails with a
`TimeoutException` whose message carries the buffered-so-far text received
from the device (the engine left that text in `response`, and the handler
embeds its repr in the message). -/
theorem c8_race_timeout (env : Env) (u pw : Str) (s : St) (m : Str)
    (h : (waitfor_low env (race_prompt_list s) s).err? = some (Err.timeoutError m)) :
    ((waitfor_low env (race_prompt_list s) s).state).response =
      some (((waitfor_low env (race_prompt_list s) s).state).buffer)
    ∧ m = ((waitfor_low env (race_prompt_list s) s).state).buffer
    ∧ app_auth_once env u pw s =
        Res.err (Err.timeoutError (str "Buffer: " ++
          pyRepr (((waitfor_low env (race_prompt_list s) s).state).buffer)))
          ((waitfor_low env (race_prompt_list s) s).state)
    ∧ (∀ n, app_auth_loop env u pw (n + 1) s =
        Res.err (Err.timeoutError (str "Buffer: " ++
          pyRepr (((waitfor_low env (race_prompt_list s) s).state).buffer)))
          ((waitfor_low env (race_prompt_list s) s).state)) := by
  obtain ⟨hresp, hm, heq⟩ := app_auth_once_timeout env u pw (Res.err?_some h)
  refine ⟨hresp, hm, heq, ?_⟩
  intro n
  simp only [app_auth_loop]
  rw [heq]

/-- C9 (counterexample): the claim says that whenever a manual override is
set, the getter returns it and never the driver's default.  Setting the
username override to the empty pattern list stores the override
(`manual_user_re = some []`, which is not `None`), yet the getter falls back
to the driver's default because Python truthiness treats the empty list like
`None`. -/
theorem c9_empty_override_cex :
    (set_username_prompt (some []) st0).manual_user_re = some []
    ∧ get_username_prompt (set_username_prompt (some []) st0) = drvA.user_re
    ∧ drvA.user_re ≠ []
    ∧ some ([] : List Pattern) ≠ (none : Option (List Pattern)) := by decide

/-- C9 (amended): whenever a manual override is set to a non-empty pattern
list, the corresponding getter returns the override and never the active
driver's default; when the override is unset (or empty), the getter returns
the active driver's value — for each of the five categories. -/
theorem c9_manual_override_amended (s : St) (l : List Pattern) (h : l ≠ []) :
    (get_username_prompt (set_username_prompt (some l) s) = l
     ∧ get_username_prompt (set_username_prompt none s) = (get_driver s).user_re)
    ∧ (get_password_prompt (set_password_prompt (some l) s) = l
     ∧ get_password_prompt (set_password_prompt none s) = (get_driver s).password_re)
    ∧ (get_prompt (set_prompt (some l) s) = l
     ∧ get_prompt (set_prompt none s) = (get_driver s).prompt_re)
    ∧ (get_error_prompt (set_error_prompt (some l) s) = l
     ∧ get_error_prompt (set_error_prompt none s) = (get_driver s).error_re)
    ∧ (get_login_error_prompt (set_login_error_prompt (some l) s) = l
     ∧ get_login_error_prompt (set_login_error_prompt none s) =
         (get_driver s).login_error_re) := by
  refine ⟨⟨?_, rfl⟩, ⟨?_, rfl⟩, ⟨?_, rfl⟩, ⟨?_, rfl⟩, ⟨?_, rfl⟩⟩ <;>
    simp [get_username_prompt, set_username_prompt, get_password_prompt,
      set_password_prompt, get_prompt, set_prompt, get_error_prompt,
      set_error_prompt, get_login_error_prompt, set_login_error_prompt,
      to_regexs, h]

/-- C10: while a manual driver is pinned, processing a received chunk never
triggers the driver-replaced notification — the flag is untouched, no
cancellation happens (absent a cancelling subscriber), only the
data-received event is recorded — because `get_driver` returns the pinned
driver both before and after the OS guess (and the automatic driver) is
updated. -/
theorem c10_pinned_driver (env : Env) (d : Driver) (c : Str) (s : St)
    (hpin : s.manual_driver = some d)
    (hcb : env.cancelOnData (clean c) = false) :
    get_driver s = d
    ∧ get_driver (receive_cb env c s) = d
    ∧ (receive_cb env c s).driver_replaced = s.driver_replaced
    ∧ (receive_cb env c s).cancel = s.cancel
    ∧ (receive_cb env c s).trace = Ev.dataReceived (clean c) :: s.trace
    ∧ (receive_cb env c s).osEvidence = s.osEvidence ++ [clean c]
    ∧ (receive_cb env c s).auto_driver =
        env.driver_map (env.osGuess (s.osEvidence ++ [clean c])) := by
  have hgd : get_driver s = d := by unfold get_driver; rw [hpin]
  have hgd2 : get_driver (osUpdate env (clean c) s) = d := by
    unfold get_driver osUpdate
    dsimp only
    rw [hpin]
  rw [receive_cb_cases]
  dsimp only
  rw [if_neg (by simp [hcb]), if_neg (by simp [hgd, hgd2])]
  refine ⟨hgd, ?_, ?_, ?_, ?_, ?_, ?_⟩
  · unfold get_driver osUpdate
    dsimp only
    rw [hpin]
  all_goals simp [osUpdate]

/-! Witnesses: each applies its claim theorem at a concrete input,
discharging the hypotheses by evaluation. -/

/-- Witness for C3 at concrete inputs: a wait whose patterns never match
times out through `waitfor` unchanged, and a chunk that flips the OS guess
makes one race iteration restart (`cont`). -/
theorem c3_driver_replaced_policy_witness :
    waitfor envA [Pattern.lit (str "zzz")] s3t =
      Res.err (Err.timeoutError (str "abcnoise"))
        ((waitfor_low envA [Pattern.lit (str "zzz")] s3t).state)
    ∧ app_auth_once envA (str "u") (str "p") s3d =
        Res.ok LoopCtl.cont ((waitfor_low envA (race_prompt_list s3d) s3d).state) := by
  have h := c3_driver_replaced_policy envA [Pattern.lit (str "zzz")] (str "u") (str "p")
    s3t s3d (Err.timeoutError (str "abcnoise")) (Err.timeoutError (str "abcnoise")) 3
    (by decide) (by decide) (by decide) (by decide) (by decide)
  exact ⟨h.1, h.2.2.1⟩

/-- Witness for C5 at a concrete challenge: the device presents
`s/key 97 th91334`, the engine fires the OTP request for `(97, th91334)`
and the last transmission of the iteration is the computed response with a
trailing carriage return. -/
theorem c5_skey_flow_witness :
    (app_auth_once envA (str "u") (str "pw") s5k).val? = some LoopCtl.cont
    ∧ (app_auth_once envA (str "u") (str "pw") s5k).state.trace.head? =
        some (Ev.sent (envA.otp (str "pw") (str "th91334") (digitsToNat (str "97")) ++ str "\r"))
    ∧ Ev.otpRequested (digitsToNat (str "97")) (str "th91334") ∈
        (app_auth_once envA (str "u") (str "pw") s5k).state.trace := by
  have h := c5_skey_flow envA (str "u") (str "pw") s5k 2
    ⟨16, str "97", str "th91334"⟩ (by decide) (by decide)
  have h2 := h.2 ((app_auth_once envA (str "u") (str "pw") s5k).state) (by decide)
  exact ⟨by decide, h2.1, h2.2⟩

/-- Witness for C7 at a concrete state whose buffer already shows the CLI
prompt: after the race breaks out, the prompt is still matchable. -/
theorem c7_cli_flush_witness :
    (findMatch (get_prompt ((app_auth_once envA (str "u") (str "p") s7b).state))
      ((app_auth_once envA (str "u") (str "p") s7b).state).buffer).isSome = true :=
  (c7_cli_flush envA (str "u") (str "p") 3 s7b s7b (by decide) (by decide)).1

/-- Witness for C8 at a concrete state: the race times out after receiving
`cd` on top of the buffered `ab`, and the buffered text is left in
`response`. -/
theorem c8_race_timeout_witness :
    ((waitfor_low envA (race_prompt_list s8t) s8t).state).response =
      some (((waitfor_low envA (race_prompt_list s8t) s8t).state).buffer)
    ∧ app_auth_once envA (str "u") (str "p") s8t =
        Res.err (Err.timeoutError (str "Buffer: " ++
          pyRepr (((waitfor_low envA (race_prompt_list s8t) s8t).state).buffer)))
          ((waitfor_low envA (race_prompt_list s8t) s8t).state) := by
  have h := c8_race_timeout envA (str "u") (str "p") s8t (str "abcd") (by decide)
  exact ⟨h.1, h.2.2.1⟩

/-- Witness for C9 (amended) at a concrete non-empty override. -/
theorem c9_manual_override_witness :
    get_username_prompt (set_username_prompt (some [Pattern.lit (str "user:")]) st0) =
      [Pattern.lit (str "user:")] :=
  (c9_manual_override_amended st0 [Pattern.lit (str "user:")] (by decide)).1.1

/-- Witness for C10 at a concrete pinned session: the chunk `IOS` flips the
automatic driver to `ios`, yet the active driver stays pinned and no
notification fires. -/
theorem c10_pinned_driver_witness :
    get_driver s10p = drvA
    ∧ get_driver (receive_cb envA (str "IOS") s10p) = drvA
    ∧ (receive_cb envA (str "IOS") s10p).driver_replaced = s10p.driver_replaced
    ∧ (receive_cb envA (str "IOS") s10p).auto_driver = drvB := by
  have h := c10_pinned_driver envA drvA (str "IOS") s10p (by decide) (by decide)
  refine ⟨h.1, h.2.1, h.2.2.1, ?_⟩
  rw [h.2.2.2.2.2.2]
  decide

end Transport
